import Mathlib

set_option maxRecDepth 40000

/-!
Verification of the hephaestus-cli coordination layer against its
specification.

The development shallowly embeds the Python modules
`hephaestus/communication.py`, `hephaestus/task_manager.py` and
`hephaestus/task_distributor.py`:

* strings are modelled as Lean `String` / `List Char`, with the Python
  string primitives (`str.split`, `str.strip`, `str.startswith`,
  `in`-substring tests, `str.replace`, `str.endswith`) transcribed as
  executable structural functions on `List Char`;
* the filesystem directories used by the stores are modelled explicitly
  (task-status directories as a presence predicate keyed by task id,
  mailbox directories as association lists of `(subdirectory, filename,
  file text)` entries);
* the only piece of behaviour taken from outside the repository is
  `hashlib.md5(...).hexdigest()` (Python standard library): the spec
  (section 4.1) characterises it as "any stable, collision-resistant-enough
  digest over the concatenation", and it is modelled here as a
  deterministic injective fixed-width hex encoding that shares the
  relevant interface properties of a real hexdigest (nonempty output over
  the hex alphabet).
-/

namespace Hephaestus

/-! ## Python string primitives on character lists -/

/-- Whitespace characters recognised by Python's `str.strip()` for the
ASCII range (the inputs handled by this development are ASCII). -/
def pyIsSpace (c : Char) : Bool :=
  c = ' ' || c = '\t' || c = '\n' || c = '\r' || c = '\x0b' || c = '\x0c'

/-- Python `str.strip()`: remove leading and trailing whitespace. -/
def pyStrip (l : List Char) : List Char :=
  ((l.dropWhile pyIsSpace).reverse.dropWhile pyIsSpace).reverse

/-- Python `str.startswith(pat)` over explicit character lists. -/
def isPre : List Char → List Char → Bool
  | [], _ => true
  | _ :: _, [] => false
  | a :: as, b :: bs => a == b && isPre as bs

/-- Python `str.split(sep, 1)` combined with the `sep in s` test: returns
the text before and after the first occurrence of `sep`, or `none` when
`sep` does not occur. -/
def splitFirst (sep : List Char) : List Char → Option (List Char × List Char)
  | [] => none
  | c :: rest =>
    if isPre sep (c :: rest) then some ([], (c :: rest).drop sep.length)
    else (splitFirst sep rest).map (fun p => (c :: p.1, p.2))

/-- Python `s.split("---")` (used by `Message.from_markdown`): leftmost,
non-overlapping splitting on the three-character delimiter. -/
def splitTriple : List Char → List (List Char)
  | [] => [[]]
  | [c] => [[c]]
  | [c, d] => [[c, d]]
  | c :: d :: e :: rest =>
    if c = '-' ∧ d = '-' ∧ e = '-' then [] :: splitTriple rest
    else
      match splitTriple (d :: e :: rest) with
      | [] => [[c]]
      | g :: gs => (c :: g) :: gs

/-- Splitting on a newline character (the line structure seen by the YAML
loader on the metadata block). -/
def splitNl : List Char → List (List Char)
  | [] => [[]]
  | c :: rest =>
    if c = '\n' then [] :: splitNl rest
    else
      match splitNl rest with
      | [] => [[c]]
      | g :: gs => (c :: g) :: gs

/-- Python `s.split("_")` (used by the Task Distributor's filename
micro-protocol). -/
def splitUnderscore : List Char → List (List Char)
  | [] => [[]]
  | c :: rest =>
    if c = '_' then [] :: splitUnderscore rest
    else
      match splitUnderscore rest with
      | [] => [[c]]
      | g :: gs => (c :: g) :: gs

/-- Python `s.strip('"')`: remove every leading and trailing double-quote
character. -/
def stripQuotes (l : List Char) : List Char :=
  ((l.dropWhile (fun c => c = '"')).reverse.dropWhile (fun c => c = '"')).reverse

/-- Python `s.endswith(suf)` / the suffix test performed by a `*suf` glob
pattern. -/
def endsWithL (suf l : List Char) : Bool :=
  isPre suf.reverse l.reverse

/-- Python `s.replace("worker", "")`: delete every (leftmost,
non-overlapping) occurrence of `worker`. -/
def dropWorker : List Char → List Char
  | 'w' :: 'o' :: 'r' :: 'k' :: 'e' :: 'r' :: rest => dropWorker rest
  | c :: rest => c :: dropWorker rest
  | [] => []

/-- Python `Path.stem`: the filename with its last `.suffix` removed. -/
def stemL (f : List Char) : List Char :=
  match splitFirst ['.'] f.reverse with
  | some (_, rest) => rest.reverse
  | none => f

/-- True when the list contains no two adjacent dash characters.  Text
satisfying this can never contain or help form the `---` region delimiter
of the mailbox document format. -/
def noPair : List Char → Bool
  | [] => true
  | [_] => true
  | a :: b :: rest => !(a = '-' && b = '-') && noPair (b :: rest)

/-! ## Task Store (`task_manager.py`)

`TaskStatus`, `TaskPriority`, `Task` and `TaskManager` transcribe the
dataclasses of `hephaestus/task_manager.py`.  The in-memory dict
`TaskManager._tasks` is modelled as an insertion-ordered association list
(Python dicts preserve insertion order) and the three status directories
as a presence predicate `disk id dir` meaning "a file named `<id>.json`
exists in `dir`".  Timestamps (`time.time()`) and generated ids
(`uuid.uuid4`) are external inputs and are passed in explicitly. -/

inductive TaskStatus where
  | pending
  | in_progress
  | completed
  | failed
  | cancelled
deriving DecidableEq, Repr

inductive TaskPriority where
  | high
  | medium
  | low
deriving DecidableEq, Repr

/-- The three status directories `tasks/pending`, `tasks/in_progress`,
`tasks/completed` of the task store. -/
inductive TaskDir where
  | pendingDir
  | inProgressDir
  | completedDir
deriving DecidableEq, Repr

/-- The `Task` dataclass of `task_manager.py`. -/
structure Task where
  id : String
  title : String
  description : String
  requirements : List String
  expected_output : String
  priority : TaskPriority
  status : TaskStatus
  assigned_to : Option String
  created_at : Nat
  started_at : Option Nat
  completed_at : Option Nat
  result : Option String
  error : Option String
  metadata : List (String × String)
deriving DecidableEq, Repr

/-- `TaskManager._get_task_file`: the directory holding a task's file,
keyed by status.  `completed`, `failed` and `cancelled` all map to the
completed directory; the defensive `else` branch of the Python code is
unreachable over the five-value enum. -/
def statusDir : TaskStatus → TaskDir
  | .pending => .pendingDir
  | .in_progress => .inProgressDir
  | .completed => .completedDir
  | .failed => .completedDir
  | .cancelled => .completedDir

/-- On-disk state of the task store: `disk id d = true` iff a file named
`<id>.json` exists in status directory `d`. -/
def TaskDisk : Type := String → TaskDir → Bool

/-- Removing `<id>.json` from directory `d` (`Path.unlink`, guarded in the
source by an existence check that is immaterial for the resulting state). -/
def unlinkTaskFile (dk : TaskDisk) (id : String) (d : TaskDir) : TaskDisk :=
  fun i d' => if i = id ∧ d' = d then false else dk i d'

/-- Writing `<id>.json` into directory `d` (`json.dump` under `open(..,"w")`). -/
def writeTaskFile (dk : TaskDisk) (id : String) (d : TaskDir) : TaskDisk :=
  fun i d' => if i = id ∧ d' = d then true else dk i d'

/-- Iteration order of `for status in TaskStatus` (enum definition order). -/
def allStatuses : List TaskStatus :=
  [.pending, .in_progress, .completed, .failed, .cancelled]

/-- `TaskManager._save_task`: delete the task's file from the directory of
every status other than the current one, then write it into the directory
matching the current status. -/
def saveTask (dk : TaskDisk) (t : Task) : TaskDisk :=
  writeTaskFile
    ((allStatuses.filter (fun s => s ≠ t.status)).foldl
      (fun acc s => unlinkTaskFile acc t.id (statusDir s)) dk)
    t.id (statusDir t.status)

/-- In-memory and on-disk state of a `TaskManager`. -/
structure TMState where
  tasks : List Task
  disk : TaskDisk

/-- Python `dict.get`: first (unique) entry with the given id. -/
def dictGet (ts : List Task) (id : String) : Option Task :=
  ts.find? (fun t => t.id == id)

/-- Python `dict.__setitem__` on an insertion-ordered dict: replace the
entry in place when the key is present, otherwise append. -/
def dictSet (ts : List Task) (t : Task) : List Task :=
  if ts.any (fun u => u.id == t.id) then
    ts.map (fun u => if u.id == t.id then t else u)
  else ts ++ [t]

/-- `TaskManager.create_task`: builds a pending task, caches it and saves
it to disk.  `id` stands for the generated `task-<uuid4hex>` id and `now`
for `time.time()`. -/
def createTask (s : TMState) (id title description : String)
    (requirements : List String) (expected_output : String)
    (priority : TaskPriority) (now : Nat) : TMState × Task :=
  let t : Task :=
    { id := id, title := title, description := description
      requirements := requirements, expected_output := expected_output
      priority := priority, status := .pending, assigned_to := none
      created_at := now, started_at := none, completed_at := none
      result := none, error := none, metadata := [] }
  ({ tasks := dictSet s.tasks t, disk := saveTask s.disk t }, t)

/-- `TaskManager.assign_task`: fails when the task is missing or not
pending; otherwise records the assignee, moves the status to in_progress,
stamps `started_at` and saves. -/
def assignTask (s : TMState) (task_id agent_id : String) (now : Nat) :
    TMState × Bool :=
  match dictGet s.tasks task_id with
  | none => (s, false)
  | some t =>
    if t.status ≠ TaskStatus.pending then (s, false)
    else
      let t' := { t with assigned_to := some agent_id
                         status := TaskStatus.in_progress
                         started_at := some now }
      ({ tasks := dictSet s.tasks t', disk := saveTask s.disk t' }, true)

/-- `TaskManager.update_task_status`: sets the new status (any status is
accepted), stamps `completed_at` on entry into a terminal status, stores
truthy `result`/`error` strings and saves. -/
def updateTaskStatus (s : TMState) (task_id : String) (status : TaskStatus)
    (result error : Option String) (now : Nat) : TMState × Bool :=
  match dictGet s.tasks task_id with
  | none => (s, false)
  | some t =>
    let t1 := { t with status := status }
    let t2 :=
      if status = TaskStatus.completed ∨ status = TaskStatus.failed ∨
          status = TaskStatus.cancelled then
        { t1 with completed_at := some now }
      else t1
    let t3 :=
      match result with
      | some r => if r ≠ "" then { t2 with result := some r } else t2
      | none => t2
    let t4 :=
      match error with
      | some e => if e ≠ "" then { t3 with error := some e } else t3
      | none => t3
    ({ tasks := dictSet s.tasks t4, disk := saveTask s.disk t4 }, true)

/-- One public mutating call on a `TaskManager`. -/
inductive TMOp where
  | create (id title description : String) (requirements : List String)
      (expected_output : String) (priority : TaskPriority) (now : Nat)
  | assign (task_id agent_id : String) (now : Nat)
  | update (task_id : String) (status : TaskStatus)
      (result error : Option String) (now : Nat)

/-- Apply one call, discarding its return value. -/
def applyTMOp (s : TMState) : TMOp → TMState
  | .create id title description requirements expected_output priority now =>
    (createTask s id title description requirements expected_output priority now).1
  | .assign task_id agent_id now => (assignTask s task_id agent_id now).1
  | .update task_id status result error now =>
    (updateTaskStatus s task_id status result error now).1

/-- The empty store: no cached tasks, empty status directories. -/
def initTM : TMState :=
  { tasks := [], disk := fun _ _ => false }

/-- Run a sequence of calls from the empty store. -/
def runTMOps (s : TMState) (ops : List TMOp) : TMState :=
  ops.foldl applyTMOp s

/-- Priority rank used as the primary sort key by `TaskManager.list_tasks`
(`priority_order` dict: high 0, medium 1, low 2). -/
def prioRank : TaskPriority → Nat
  | .high => 0
  | .medium => 1
  | .low => 2

/-- The sort key order of `list_tasks`: by priority rank, then by creation
time (Python tuple comparison of `(priority_order[p], created_at)`). -/
def taskLe (t u : Task) : Bool :=
  decide (prioRank t.priority < prioRank u.priority ∨
    (prioRank t.priority = prioRank u.priority ∧ t.created_at ≤ u.created_at))

/-- Insert into a sorted list, keeping earlier elements first on ties:
together with `sortByL` this is a stable sort agreeing with Python's
stable `list.sort(key=...)`. -/
def insertByL (le : Task → Task → Bool) (x : Task) : List Task → List Task
  | [] => [x]
  | y :: ys => if le x y then x :: y :: ys else y :: insertByL le x ys

/-- Stable insertion sort (extensionally identical to Python's stable sort
for the same key order). -/
def sortByL (le : Task → Task → Bool) (l : List Task) : List Task :=
  l.foldr (insertByL le) []

/-- `TaskManager.list_tasks`: filter by the optional status, assignee and
priority arguments, then sort.  Python truthiness: an empty-string
`assigned_to` filter is skipped (`if assigned_to:`); enum filters are
always truthy when present. -/
def listTasks (s : TMState) (status : Option TaskStatus)
    (assigned_to : Option String) (priority : Option TaskPriority) :
    List Task :=
  let ts := s.tasks
  let ts :=
    match status with
    | some st => ts.filter (fun t => t.status = st)
    | none => ts
  let ts :=
    match assigned_to with
    | some a => if a ≠ "" then ts.filter (fun t => t.assigned_to = some a) else ts
    | none => ts
  let ts :=
    match priority with
    | some p => ts.filter (fun t => t.priority = p)
    | none => ts
  sortByL taskLe ts

/-- `TaskManager.get_next_pending_task`: head of the sorted pending list. -/
def getNextPendingTask (s : TMState) (priority : Option TaskPriority) :
    Option Task :=
  match listTasks s (some TaskStatus.pending) none priority with
  | [] => none
  | t :: _ => some t

/-- The dictionary returned by `TaskManager.get_statistics`. -/
structure TaskStats where
  total : Nat
  pending : Nat
  in_progress : Nat
  completed : Nat
  failed : Nat
  cancelled : Nat
  high : Nat
  medium : Nat
  low : Nat
deriving DecidableEq, Repr

/-- Loop body of `get_statistics`: bump the counter of the task's status
and of its priority. -/
def statBump (st : TaskStats) (t : Task) : TaskStats :=
  let st :=
    match t.status with
    | .pending => { st with pending := st.pending + 1 }
    | .in_progress => { st with in_progress := st.in_progress + 1 }
    | .completed => { st with completed := st.completed + 1 }
    | .failed => { st with failed := st.failed + 1 }
    | .cancelled => { st with cancelled := st.cancelled + 1 }
  match t.priority with
  | .high => { st with high := st.high + 1 }
  | .medium => { st with medium := st.medium + 1 }
  | .low => { st with low := st.low + 1 }

/-- `TaskManager.get_statistics`. -/
def getStatistics (s : TMState) : TaskStats :=
  s.tasks.foldl statBump
    { total := s.tasks.length, pending := 0, in_progress := 0
      completed := 0, failed := 0, cancelled := 0
      high := 0, medium := 0, low := 0 }

/-! ## Concrete task-store instances used by witnesses and scenarios -/

/-- A demonstration call sequence: create task `t1`, then assign it. -/
def demoOps : List TMOp :=
  [TMOp.create "t1" "Demo" "d" [] "" TaskPriority.medium 0,
   TMOp.assign "t1" "w1" 5]

/-- The in-memory record produced by `demoOps`. -/
def demoTask : Task :=
  { id := "t1", title := "Demo", description := "d", requirements := []
    expected_output := "", priority := TaskPriority.medium
    status := TaskStatus.in_progress, assigned_to := some "w1"
    created_at := 0, started_at := some 5, completed_at := none
    result := none, error := none, metadata := [] }

/-- A pending task `a` used by the assignment-guard witness. -/
def guardTaskA : Task :=
  { id := "a", title := "A", description := "", requirements := []
    expected_output := "", priority := TaskPriority.medium
    status := TaskStatus.pending, assigned_to := none
    created_at := 0, started_at := none, completed_at := none
    result := none, error := none, metadata := [] }

/-- A completed task `b` used by the assignment-guard witness. -/
def guardTaskB : Task :=
  { guardTaskA with id := "b", title := "B", status := TaskStatus.completed }

/-- A store holding the pending task `a` and the completed task `b`. -/
def guardState : TMState :=
  { tasks := [guardTaskA, guardTaskB]
    disk := fun _ _ => false }

/-- Queue-ordering scenario of the spec: three pending tasks created in the
order low priority, high priority, medium priority. -/
def queueOps : List TMOp :=
  [TMOp.create "tL" "L" "" [] "" TaskPriority.low 0,
   TMOp.create "tH" "H" "" [] "" TaskPriority.high 1,
   TMOp.create "tM" "M" "" [] "" TaskPriority.medium 2]

/-- The state after creating the three queued tasks. -/
def queueState0 : TMState := runTMOps initTM queueOps

/-- After the high-priority task has been assigned (left pending status). -/
def queueState1 : TMState := runTMOps initTM (queueOps ++ [TMOp.assign "tH" "w1" 3])

/-- After the medium-priority task has also been assigned. -/
def queueState2 : TMState :=
  runTMOps initTM (queueOps ++ [TMOp.assign "tH" "w1" 3, TMOp.assign "tM" "w1" 4])

/-! ## Mailbox Protocol (`communication.py`)

`Message`, `Message.to_markdown` and `Message.from_markdown` transcribe
the dataclass of `hephaestus/communication.py`.  External inputs are made
explicit: `uuid.uuid4()` / `datetime.utcnow()` (the decoder defaults for
a missing id / timestamp) are passed as `freshId` / `freshTs`.

`hashlib.md5(...).hexdigest()` is Python standard-library code, not part
of this repository.  Modelled from the spec: section 4.1 specifies the
checksum as "any stable, collision-resistant-enough digest over the
concatenation of (id, kind, sender, recipient, body with
leading/trailing whitespace stripped)... deterministic across
platforms/encodings".  `md5Hex` realises that contract as an injective
fixed-width hex encoding: deterministic, nonempty, hex-alphabet output,
and (idealising collision resistance) injective.

`yaml.safe_load` (the PyYAML library, also external) is modelled on the
sublanguage of documents that this protocol exchanges: a `metadata:`
first line followed by two-space-indented `key: "double-quoted value"`
lines, where the quoted value contains no `"`, no backslash escape and
no control characters.  On such documents PyYAML returns exactly the
mapping produced here; a bare `metadata:` line with no entries loads as
`\x7bmetadata: None\x7d`, which the decoder's `metadata.get` then turns into an
`AttributeError`, hence a decode failure.  Inputs outside the modelled
sublanguage are mapped to an error (the proofs below never rely on an
error result for such inputs). -/

/-- One hex digit (lower case), as produced by a hexdigest. -/
def hexDigit (n : Nat) : Char :=
  "0123456789abcdef".data.getD n 'x'

/-- Fixed-width (six hex digit) encoding of one character's code point
(code points are below `0x110000 < 16^6`). -/
def charHex6 (c : Char) : List Char :=
  [hexDigit (c.toNat / 1048576 % 16), hexDigit (c.toNat / 65536 % 16),
   hexDigit (c.toNat / 4096 % 16), hexDigit (c.toNat / 256 % 16),
   hexDigit (c.toNat / 16 % 16), hexDigit (c.toNat % 16)]

/-- Modelled from the spec: `hashlib.md5(text.encode()).hexdigest()`
idealised as an injective deterministic digest with a hexdigest-shaped
output (nonempty, hex alphabet). -/
def md5HexL (l : List Char) : List Char :=
  'd' :: l.foldr (fun c acc => charHex6 c ++ acc) []

/-- The `Message` dataclass of `communication.py`. -/
structure Message where
  id : String
  type : String
  sender : String
  recipient : String
  timestamp : String
  priority : String
  content : String
  checksum : String
deriving DecidableEq, Repr

/-- `Message._calculate_checksum`: digest of
`f"{id}{type}{sender}{recipient}{content.strip()}"`. -/
def calcChecksum (m : Message) : String :=
  String.mk (md5HexL ((m.id ++ m.type ++ m.sender ++ m.recipient).data ++
    pyStrip m.content.data))

/-- `Message.verify_checksum`. -/
def verifyChecksum (m : Message) : Bool :=
  m.checksum == calcChecksum m

/-- The `Message` constructor followed by `__post_init__`: an empty
(falsy) checksum is replaced by the computed one. -/
def mkMessage (id type sender recipient timestamp priority content checksum :
    String) : Message :=
  let m : Message :=
    { id := id, type := type, sender := sender, recipient := recipient
      timestamp := timestamp, priority := priority, content := content
      checksum := checksum }
  if m.checksum = "" then { m with checksum := calcChecksum m } else m

/-- One `  key: "value"` line of the metadata block
(`markdown += f"  \x7bkey\x7d: \"\x7bvalue\x7d\"\n"`). -/
def metaLine (key : String) (v : List Char) : List Char :=
  ' ' :: ' ' :: (key.data ++ ':' :: ' ' :: '"' :: (v ++ ['"']))

/-- The metadata block between the first two delimiters, without its
surrounding newlines: `metadata:` followed by the six key lines in the
order written by `to_markdown`. -/
def metaCore (m : Message) : List Char :=
  "metadata:".data ++ '\n' :: (metaLine "id" m.id.data ++
    '\n' :: (metaLine "type" m.type.data ++
      '\n' :: (metaLine "from" m.sender.data ++
        '\n' :: (metaLine "to" m.recipient.data ++
          '\n' :: (metaLine "timestamp" m.timestamp.data ++
            '\n' :: metaLine "priority" m.priority.data)))))

/-- Region between the first and second `---` of the encoded document. -/
def metaPart (m : Message) : List Char :=
  '\n' :: (metaCore m ++ ['\n'])

/-- Region between the second and third `---`: the content block
(`"---\n\n## Content\n\n" + content + "\n\n"` without the delimiters). -/
def contentPart (m : Message) : List Char :=
  '\n' :: '\n' :: ("## Content".data ++
    '\n' :: '\n' :: (m.content.data ++ ['\n', '\n']))

/-- Region after the third `---`: the checksum trailer. -/
def trailerPart (m : Message) : List Char :=
  '\n' :: ("checksum: \"".data ++ (m.checksum.data ++ '"' :: ['\n']))

/-- `Message.to_markdown`, as a character list.  The concatenation below
is, character for character, the document built by the Python method:
`"# Task Message\n" + "---\n" + "metadata:\n"` + the six quoted key
lines + `"---\n\n" + "## Content\n\n" + content + "\n\n" + "---\n" +
f"checksum: \"\x7bchecksum\x7d\"\n"` (see `toMarkdown_sample` below for an
end-to-end literal check). -/
def toMarkdownL (m : Message) : List Char :=
  "# Task Message\n".data ++ '-' :: '-' :: '-' :: metaPart m ++
    '-' :: '-' :: '-' :: contentPart m ++
      '-' :: '-' :: '-' :: trailerPart m

/-- `Message.to_markdown`. -/
def toMarkdown (m : Message) : String :=
  String.mk (toMarkdownL m)

/-- A double-quoted YAML scalar of the modelled sublanguage: strip the
surrounding quotes; anything else is outside the model. -/
def parseQuoted (v : List Char) : Except String (List Char) :=
  match v with
  | '"' :: rest =>
    match rest.getLast? with
    | some '"' =>
      if rest.dropLast.all (fun c => !(c == '"') && !(c == '\\')) then
        Except.ok rest.dropLast
      else Except.error "unmodeled scalar"
    | _ => Except.error "unmodeled scalar"
  | _ => Except.error "unmodeled scalar"

/-- One metadata line as read back by the YAML loader: two-space indent,
key, `: `, double-quoted value. -/
def parseMetaLine (line : List Char) : Except String (List Char × List Char) :=
  if isPre "  ".data line then
    match splitFirst (':' :: [' ']) (line.drop 2) with
    | some (k, v) =>
      match parseQuoted v with
      | Except.ok b => Except.ok (k, b)
      | Except.error e => Except.error e
    | none => Except.error "unmodeled metadata line"
  else Except.error "unmodeled metadata line"

/-- Error-propagating map over the metadata lines. -/
def mapME (f : List Char → Except String (List Char × List Char)) :
    List (List Char) → Except String (List (List Char × List Char))
  | [] => Except.ok []
  | a :: l =>
    match f a with
    | Except.error e => Except.error e
    | Except.ok b =>
      match mapME f l with
      | Except.error e => Except.error e
      | Except.ok bs => Except.ok (b :: bs)

/-- `yaml.safe_load(metadata_section)` restricted to the modelled
sublanguage, returning the value of the `metadata` key: `none` models
YAML's `null` (a bare `metadata:` with no entries), `some kvs` the
key/value mapping. -/
def yamlMeta (s : List Char) : Except String (Option (List (List Char × List Char))) :=
  match splitNl s with
  | [] => Except.error "unreachable"
  | l0 :: rest =>
    if l0 = "metadata:".data then
      if rest.isEmpty then Except.ok none
      else
        match mapME parseMetaLine rest with
        | Except.ok kvs => Except.ok (some kvs)
        | Except.error e => Except.error e
    else Except.error "unmodeled yaml document"

/-- Python `dict.get(k, default)` for the mapping built from the parsed
lines (later duplicate keys override earlier ones, as in YAML). -/
def metaGet : List (List Char × List Char) → List Char → List Char → List Char
  | [], _, d => d
  | (k', v) :: rest, k, d => metaGet rest k (if k' = k then v else d)

/-- Content extraction of `from_markdown`: everything after the first
`## Content` occurrence in the stripped third region, stripped; empty
when the heading is absent. -/
def contentFromSection (contentSection : List Char) : List Char :=
  match splitFirst "## Content".data contentSection with
  | some (_, after) => pyStrip after
  | none => []

/-- Checksum extraction of `from_markdown`: everything after the first
`checksum:` occurrence in the stripped fourth region, stripped of
whitespace and then of quote characters; empty when absent. -/
def checksumFromSection (checksumSection : List Char) : List Char :=
  match splitFirst "checksum:".data checksumSection with
  | some (_, after) => stripQuotes (pyStrip after)
  | none => []

/-- `Message.from_markdown`.  `freshId` / `freshTs` stand for the
`uuid.uuid4()` / `datetime.utcnow()` defaults used for a missing id /
timestamp.  Every `raise` path of the Python method (including the
`AttributeError` from `metadata.get` when the metadata block loads as
`None`, re-raised as `ValueError` by the catch-all) is an `Except.error`. -/
def fromMarkdown (freshId freshTs : String) (markdown : String) :
    Except String Message :=
  let parts := splitTriple markdown.data
  if parts.length < 3 then
    Except.error "Invalid message format: missing delimiters"
  else
    let metadataSection := pyStrip (parts.getD 1 [])
    if isPre "metadata:".data metadataSection then
      match yamlMeta metadataSection with
      | Except.error e => Except.error e
      | Except.ok none =>
        Except.error "Invalid message format: NoneType has no attribute get"
      | Except.ok (some kvs) =>
        let content := contentFromSection (pyStrip (parts.getD 2 []))
        let checksumSection :=
          if 3 < parts.length then pyStrip (parts.getD 3 []) else []
        let checksum := checksumFromSection checksumSection
        Except.ok (mkMessage (String.mk (metaGet kvs "id".data freshId.data))
          (String.mk (metaGet kvs "type".data "task".data))
          (String.mk (metaGet kvs "from".data "master".data))
          (String.mk (metaGet kvs "to".data "worker-1".data))
          (String.mk (metaGet kvs "timestamp".data freshTs.data))
          (String.mk (metaGet kvs "priority".data "medium".data))
          (String.mk content) (String.mk checksum))
    else Except.error "Invalid message format: metadata not found"

/-- Transport-safe metadata field: printable ASCII, no double quote, no
backslash (so the quoted YAML scalar reads back verbatim) and no two
adjacent dashes (so the field cannot form a `---` delimiter). -/
def fieldOk (s : String) : Prop :=
  noPair s.data = true ∧
  ∀ c ∈ s.data, 32 ≤ c.toNat ∧ c.toNat ≤ 126 ∧ c ≠ '"' ∧ c ≠ '\\'

/-- Transport-safe body: no two adjacent dashes, already stripped, and no
carriage return (text-mode file round-trips rewrite CR line endings). -/
def contentOk (s : String) : Prop :=
  noPair s.data = true ∧ pyStrip s.data = s.data ∧ '\r' ∉ s.data

/-- A message the mailbox document format can carry losslessly, with its
checksum computed from its own fields (as `__post_init__` does). -/
def MsgWf (m : Message) : Prop :=
  fieldOk m.id ∧ fieldOk m.type ∧ fieldOk m.sender ∧ fieldOk m.recipient ∧
  fieldOk m.timestamp ∧ fieldOk m.priority ∧ contentOk m.content ∧
  m.checksum = calcChecksum m

/-! ## Mailbox Store (`CommunicationManager`)

A mailbox file is `(subdirectory, filename, text)`: an entry
`(w, f, text)` of `m2w` is the file `communication/master_to_worker/w/f`,
an entry of `w2m` the file `communication/worker_to_master/w/f`. -/

/-- One stored mailbox file. -/
abbrev MailFile := String × String × String

/-- The two transport directories of the store. -/
structure CommState where
  m2w : List MailFile
  w2m : List MailFile
deriving DecidableEq, Repr

/-- A store with no messages. -/
def emptyComm : CommState := { m2w := [], w2m := [] }

/-- `f"\x7bmessage.id\x7d_\x7bmessage.type\x7d.md"`. -/
def msgFilename (m : Message) : String :=
  m.id ++ "_" ++ m.type ++ ".md"

/-- Writing a file with `open(filepath, "w")`: replace an existing file
at the same path, otherwise add the file. -/
def upsertMail (l : List MailFile) (e : MailFile) : List MailFile :=
  if l.any (fun x => x.1 == e.1 && x.2.1 == e.2.1) then
    l.map (fun x => if x.1 == e.1 && x.2.1 == e.2.1 then e else x)
  else l ++ [e]

/-- `CommunicationManager.send_message`: master-authored messages are
filed under `master_to_worker/<recipient>/`, everything else under
`worker_to_master/<sender>/`. -/
def sendMessage (st : CommState) (m : Message) : CommState × Bool :=
  if m.sender == "master" then
    ({ st with m2w := upsertMail st.m2w (m.recipient, msgFilename m, toMarkdown m) },
     true)
  else
    ({ st with w2m := upsertMail st.w2m (m.sender, msgFilename m, toMarkdown m) },
     true)

/-- Lexicographic order on character lists (filesystem path order, used
by `sorted(...)` over the listed message files). -/
def clLe : List Char → List Char → Bool
  | [], _ => true
  | _ :: _, [] => false
  | a :: as, b :: bs =>
    if a.toNat < b.toNat then true
    else if b.toNat < a.toNat then false
    else clLe as bs

/-- The path of a mailbox file relative to its transport directory. -/
def mailPath (e : MailFile) : List Char :=
  e.1.data ++ '/' :: e.2.1.data

/-- Path order on mailbox files. -/
def mailLe (a b : MailFile) : Bool :=
  clLe (mailPath a) (mailPath b)

/-- Stable insertion used to model `sorted(...)` over mailbox files. -/
def insertByE (x : MailFile) : List MailFile → List MailFile
  | [] => [x]
  | y :: ys => if mailLe x y then x :: y :: ys else y :: insertByE x ys

/-- Stable sort of mailbox files by path. -/
def sortByE (l : List MailFile) : List MailFile :=
  l.foldr insertByE []

/-- The glob suffix pattern of `receive_messages`:
`f"*_\x7bmessage_type\x7d.md"` with a type filter, else `"*.md"`. -/
def mdPat (mtype : Option String) : List Char :=
  match mtype with
  | some t => '_' :: (t.data ++ ".md".data)
  | none => ".md".data

/-- The files `receive_messages(agent_id)` lists before filtering:
all of `worker_to_master` (recursive glob) for the master, the agent's
own `master_to_worker/<agent>` directory otherwise. -/
def inboxFiles (st : CommState) (agent : String) : List MailFile :=
  if agent == "master" then st.w2m
  else st.m2w.filter (fun e => e.1 == agent)

/-- `CommunicationManager.receive_messages`: list the matching files in
path order, decode each, silently skip files that fail to decode and
messages whose checksum does not verify. -/
def receiveMessages (freshId freshTs : String) (st : CommState)
    (agent : String) (mtype : Option String) : List Message :=
  (sortByE ((inboxFiles st agent).filter
      (fun e => endsWithL (mdPat mtype) e.2.1.data))).filterMap
    (fun e =>
      match fromMarkdown freshId freshTs e.2.2 with
      | Except.error _ => none
      | Except.ok msg => if verifyChecksum msg then some msg else none)

/-- The directory invariant: every cached task's file exists in exactly the
directory matching its status. -/
def TMInv (s : TMState) : Prop :=
  ∀ t ∈ s.tasks, ∀ d, (s.disk t.id d = true ↔ d = statusDir t.status)

/-- Key/value pairs recovered from the metadata block of a well-formed
message's document. -/
def metaKVs (m : Message) : List (List Char × List Char) :=
  [("id".data, m.id.data), ("type".data, m.type.data),
   ("from".data, m.sender.data), ("to".data, m.recipient.data),
   ("timestamp".data, m.timestamp.data), ("priority".data, m.priority.data)]

/-! ## Concrete messages used by counterexamples and witnesses -/

deriving instance DecidableEq for Except

instance (s : String) : Decidable (fieldOk s) := by
  unfold fieldOk
  infer_instance

instance (s : String) : Decidable (contentOk s) := by
  unfold contentOk
  infer_instance

instance (m : Message) : Decidable (MsgWf m) := by
  unfold MsgWf
  infer_instance

/-- A message whose body contains the `---` region delimiter. -/
def cexMsg : Message :=
  mkMessage "id-1" "task" "master" "worker-1" "2024-01-01T00:00:00Z" "medium"
    "alpha---beta" ""

/-- A transport-safe message used as the round-trip witness. -/
def wfMsg : Message :=
  mkMessage "task-001" "task" "master" "worker-1" "2024-01-01T00:00:00Z" "high"
    "Do the thing" ""

/-- Base message of the tamper-detection counterexample (body `"x"`). -/
def tamperBase : Message :=
  mkMessage "id-2" "task" "master" "worker-1" "2024-01-01T00:00:00Z" "medium"
    "x" ""

/-- Base message of the tamper-detection witness. -/
def tamperWfBase : Message :=
  mkMessage "id-3" "task" "master" "worker-1" "2024-01-01T00:00:00Z" "medium"
    "original body" ""

/-- The document of the C7 default-substitution scenario: three regions,
a metadata block holding only an `id` entry, no content heading and no
checksum trailer. -/
def idOnlyDoc (v : String) : String :=
  "x---\nmetadata:\n  id: \"" ++ v ++ "\"---y"

/-- A stored document whose checksum trailer does not match its content. -/
def badChecksumDoc : String :=
  toMarkdown { wfMsg with checksum := "deadbeef" }

/-- The message `from_markdown` recovers from `badChecksumDoc`. -/
def badChecksumMsg : Message :=
  mkMessage "task-001" "task" "master" "worker-1" "2024-01-01T00:00:00Z" "high"
    "Do the thing" "deadbeef"

/-- A valid message stored in worker-1's inbox. -/
def okMsg : Message :=
  mkMessage "m-ok" "task" "master" "worker-1" "2024-01-01T00:00:00Z" "medium"
    "hello" ""

/-- A hand-corrupted mailbox file: the body of a stored message was
altered while its (now stale) checksum line was kept. -/
def corruptText : String :=
  toMarkdown { (mkMessage "m-bad" "task" "master" "worker-1"
    "2024-01-01T00:00:00Z" "medium" "original" "") with content := "evil" }

/-- Worker-1's inbox holding one valid and one corrupted file. -/
def demoComm : CommState :=
  { m2w := [("worker-1", "m-ok_task.md", toMarkdown okMsg),
            ("worker-1", "m-bad_task.md", corruptText)]
    w2m := [] }

/-- A master-authored message addressed to `"master"` itself. -/
def mmMsg : Message :=
  mkMessage "mm-1" "task" "master" "master" "2024-01-01T00:00:00Z" "medium"
    "hi" ""

/-- A worker-authored status message. -/
def w2Msg : Message :=
  mkMessage "w-1" "status" "worker-2" "master" "2024-01-01T00:00:00Z" "medium"
    "done" ""

/-- A master-authored task message for worker-2. -/
def mwMsg : Message :=
  mkMessage "t-1" "task" "master" "worker-2" "2024-01-01T00:00:00Z" "medium"
    "do it" ""

/-! ## Task Distributor (`task_distributor.py`)

`TaskAssignment`, `TaskDistributor._scan_new_tasks`,
`_parse_comm_filename`, `_distribute_tasks`, `_check_completions` and
`get_status_summary` transcribe `hephaestus/task_distributor.py`.  The
distributor reads filenames only, so its filesystem view is the lists of
filenames directly under `communication/master_to_worker/` and
`communication/worker_to_master/` (its globs are non-recursive) and in
the three task-status directories.  `AgentCommunicator.
send_task_notification` drives an external pane host; modelled from the
spec (section 4.4, step 2: "send a pane/process notification to the
worker (external collaborator) and transition to Notified"): the
notification is assumed to succeed, which is the case favourable to the
claim. -/

/-- The `TaskAssignment` dataclass. -/
structure Assignment where
  task_id : String
  worker_name : String
  task_file : String
  comm_file : String
  assigned_at : Nat
  notified : Bool
  completed : Bool
deriving DecidableEq, Repr

/-- Filesystem view and internal assignment table of a `TaskDistributor`. -/
structure DistState where
  m2wTop : List String
  w2mTop : List String
  pendingFiles : List String
  inProgressFiles : List String
  completedFiles : List String
  assignments : List (String × Assignment)
deriving DecidableEq, Repr

/-- The glob `*_master_worker*_task_*.md` used by `_scan_new_tasks`. -/
def globNotif (f : List Char) : Bool :=
  match splitFirst "_master_worker".data f with
  | none => false
  | some (_, r1) =>
    match splitFirst "_task_".data r1 with
    | none => false
    | some (_, r2) => endsWithL ".md".data r2

/-- The glob `*_worker*_master_task_*.md` used by `_check_completions`. -/
def globReport (f : List Char) : Bool :=
  match splitFirst "_worker".data f with
  | none => false
  | some (_, r1) =>
    match splitFirst "_master_task_".data r1 with
    | none => false
    | some (_, r2) => endsWithL ".md".data r2

/-- The task-id recovery of `_parse_comm_filename` /
`_extract_task_id_from_report`: the first underscore-part equal to
`task` that has a successor yields `task_<successor>`. -/
def findTaskId : List (List Char) → Option (List Char)
  | [] => none
  | [_] => none
  | p :: q :: rest =>
    if p = "task".data then some ("task_".data ++ q)
    else findTaskId (q :: rest)

/-- The worker recovery of `_parse_comm_filename`: the first part that
starts with `worker`, with every `worker` occurrence deleted, becomes
`worker-<num>`; an empty remainder aborts the parse (the loop breaks). -/
def findWorker : List (List Char) → Option (List Char)
  | [] => none
  | p :: rest =>
    if isPre "worker".data p then
      (let num := dropWorker p
       if num = [] then none else some ("worker-".data ++ num))
    else findWorker rest

/-- `TaskDistributor._parse_comm_filename`. -/
def parseCommFilename (f : List Char) : Option (String × String) :=
  let parts := splitUnderscore (stemL f)
  match findTaskId parts, findWorker parts with
  | some tid, some w => some (String.mk tid, String.mk w)
  | _, _ => none

/-- Python `task_id in self.assignments` plus the lookup. -/
def lookupA (l : List (String × Assignment)) (k : String) : Option Assignment :=
  (l.find? (fun p => p.1 == k)).map (fun p => p.2)

/-- `self.assignments[task_id] = assignment` on the insertion-ordered dict. -/
def upsertA (l : List (String × Assignment)) (k : String) (a : Assignment) :
    List (String × Assignment) :=
  if l.any (fun p => p.1 == k) then
    l.map (fun p => if p.1 == k then (p.1, a) else p)
  else l ++ [(k, a)]

/-- The pending/in-progress lookup of `_scan_new_tasks`: the task file is
`<task_id>.yaml`, searched first in `tasks/pending`, then in
`tasks/in_progress`. -/
def scanFindFile (st : DistState) (tid worker f : String) :
    Option (String × String × String × String) :=
  if st.pendingFiles.any (fun p => p == tid ++ ".yaml") then
    some (tid, worker, tid ++ ".yaml", f)
  else if st.inProgressFiles.any (fun p => p == tid ++ ".yaml") then
    some (tid, worker, tid ++ ".yaml", f)
  else none

/-- `TaskDistributor._scan_new_tasks`. -/
def scanNewTasks (st : DistState) : List (String × String × String × String) :=
  (st.m2wTop.filter (fun f => globNotif f.data)).filterMap (fun f =>
    match parseCommFilename f.data with
    | none => none
    | some (tid, worker) =>
      match lookupA st.assignments tid with
      | some a => if a.notified then none else scanFindFile st tid worker f
      | none => scanFindFile st tid worker f)

/-- `_distribute_tasks` / `distribute_task_immediately` over a scan
result, with the external notification assumed successful. -/
def distributeAll (st : DistState)
    (xs : List (String × String × String × String)) (now : Nat) : DistState :=
  xs.foldl (fun s x =>
    { s with
      assignments := upsertA s.assignments x.1
        { task_id := x.1, worker_name := x.2.1, task_file := x.2.2.1,
          comm_file := x.2.2.2, assigned_at := now, notified := true,
          completed := false } }) st

/-- One scan-and-distribute round of the monitor loop. -/
def distributorScan (st : DistState) (now : Nat) : DistState :=
  distributeAll st (scanNewTasks st) now

/-- `TaskDistributor._check_completions`. -/
def checkCompletions (st : DistState) : DistState :=
  (st.w2mTop.filter (fun f => globReport f.data)).foldl (fun s f =>
    match findTaskId (splitUnderscore (stemL f.data)) with
    | none => s
    | some tidL =>
      match lookupA s.assignments (String.mk tidL) with
      | none => s
      | some a =>
        if s.completedFiles.any (fun p => p == String.mk tidL ++ ".yaml") &&
            !a.completed then
          { s with
            assignments := s.assignments.map fun p =>
              if p.1 == String.mk tidL then (p.1, { a with completed := true })
              else p }
        else s) st

/-- The dictionary returned by `get_status_summary`. -/
structure DistSummary where
  total : Nat
  notified : Nat
  completed : Nat
  pending : Nat
deriving DecidableEq, Repr

/-- `TaskDistributor.get_status_summary`. -/
def getStatusSummary (st : DistState) : DistSummary :=
  { total := st.assignments.length
    notified := (st.assignments.filter (fun p => p.2.notified)).length
    completed := (st.assignments.filter (fun p => p.2.completed)).length
    pending := (st.assignments.filter
      (fun p => p.2.notified && !p.2.completed)).length }

/-! ## The C9 scenario -/

/-- T1, created through the TaskManager (which persists
`<id>.json` into `tasks/pending/`). -/
def scenTask : Task :=
  (createTask initTM "task-1a2b" "T1" "" [] "" TaskPriority.high 0).2

/-- Distributor view after T1's creation: only the TaskManager's
`task-1a2b.json` exists, in the pending directory. -/
def scenState0 : DistState :=
  { m2wTop := [], w2mTop := [], pendingFiles := [scenTask.id ++ ".json"]
    inProgressFiles := [], completedFiles := [], assignments := [] }

/-- A master-to-worker-1 task-notification file for T1 placed directly in
the mailbox directory scanned by the distributor. -/
def scenState1 : DistState :=
  { scenState0 with
    m2wTop := ["20240101_120000_master_worker1_task_task-1a2b.md"] }

/-- After the distributor's first scan. -/
def scenState2 : DistState := distributorScan scenState1 1

/-- T1's task file moved to the completed directory and a
worker-to-master completion report placed. -/
def scenState3 : DistState :=
  { scenState2 with
    pendingFiles := [],
    completedFiles := [scenTask.id ++ ".json"],
    w2mTop := ["20240101_130000_worker1_master_task_task-1a2b.md"] }

/-- After the distributor's completion check. -/
def scenState4 : DistState := checkCompletions scenState3

/-! ## Task-store lemmas -/

lemma saveTask_spec (dk : TaskDisk) (t : Task) (i : String) (d : TaskDir) :
    saveTask dk t i d = if i = t.id then decide (d = statusDir t.status) else dk i d := by
  rcases t with ⟨tid, ttl, dsc, req, exp, pri, tst, asg, cat, sat, coat, res, err, mda⟩
  cases tst <;> cases d <;> by_cases h : i = tid <;>
    simp [saveTask, allStatuses, unlinkTaskFile, writeTaskFile, statusDir, h]

lemma mem_dictSet {ts : List Task} {t u : Task} (h : u ∈ dictSet ts t) :
    u = t ∨ (u ∈ ts ∧ (u.id == t.id) = false) := by
  unfold dictSet at h
  split at h
  · obtain ⟨v, hv, he⟩ := List.mem_map.mp h
    by_cases hb : (v.id == t.id) = true
    · left
      rw [if_pos hb] at he
      exact he.symm
    · right
      rw [if_neg hb] at he
      subst he
      exact ⟨hv, by simpa using hb⟩
  · rcases List.mem_append.mp h with h' | h'
    · rename_i hany
      right
      refine ⟨h', ?_⟩
      have hx : ∀ x ∈ ts, ¬x.id = t.id := by simpa using hany
      exact beq_eq_false_iff_ne.mpr (hx u h')
    · left
      simpa using h'

lemma TMInv_save (s : TMState) (hs : TMInv s) (t : Task) :
    TMInv { tasks := dictSet s.tasks t, disk := saveTask s.disk t } := by
  intro u hu d
  rcases mem_dictSet hu with rfl | ⟨hu', hne⟩
  · show saveTask s.disk u u.id d = true ↔ d = statusDir u.status
    rw [saveTask_spec]
    simp
  · show saveTask s.disk t u.id d = true ↔ d = statusDir u.status
    rw [saveTask_spec]
    have hune : u.id ≠ t.id := by simpa using hne
    rw [if_neg hune]
    exact hs u hu' d

lemma TMInv_apply (s : TMState) (hs : TMInv s) (op : TMOp) :
    TMInv (applyTMOp s op) := by
  cases op with
  | create id title description requirements expected_output priority now =>
    simpa [applyTMOp, createTask] using TMInv_save s hs _
  | assign tid aid now =>
    cases hg : dictGet s.tasks tid with
    | none => simpa [applyTMOp, assignTask, hg] using hs
    | some t =>
      by_cases hst : t.status = TaskStatus.pending
      · simpa [applyTMOp, assignTask, hg, hst] using TMInv_save s hs _
      · simpa [applyTMOp, assignTask, hg, hst] using hs
  | update tid status result error now =>
    cases hg : dictGet s.tasks tid with
    | none => simpa [applyTMOp, updateTaskStatus, hg] using hs
    | some t =>
      simpa [applyTMOp, updateTaskStatus, hg] using TMInv_save s hs _

lemma TMInv_run (ops : List TMOp) : TMInv (runTMOps initTM ops) := by
  have base : TMInv initTM := by
    intro u hu d
    simp [initTM] at hu
  suffices H : ∀ s, TMInv s → TMInv (runTMOps s ops) from H initTM base
  induction ops with
  | nil => intro s hs; exact hs
  | cons op rest ih =>
    intro s hs
    exact ih (applyTMOp s op) (TMInv_apply s hs op)

lemma taskLe_total (t u : Task) : taskLe t u = true ∨ taskLe u t = true := by
  simp only [taskLe, decide_eq_true_eq]
  omega

lemma taskLe_trans (t u v : Task) (h1 : taskLe t u = true) (h2 : taskLe u v = true) :
    taskLe t v = true := by
  simp only [taskLe, decide_eq_true_eq] at h1 h2 ⊢
  omega

lemma mem_insertByL (le : Task → Task → Bool) (x z : Task) (l : List Task) :
    z ∈ insertByL le x l ↔ z = x ∨ z ∈ l := by
  induction l with
  | nil => simp [insertByL]
  | cons y ys ih =>
    by_cases h : le x y = true
    · simp [insertByL, h]
    · simp [insertByL, h, ih]
      tauto

lemma pairwise_insertByL (x : Task) (l : List Task)
    (hl : l.Pairwise (fun a b => taskLe a b = true)) :
    (insertByL taskLe x l).Pairwise (fun a b => taskLe a b = true) := by
  induction l with
  | nil => simp [insertByL]
  | cons y ys ih =>
    rw [List.pairwise_cons] at hl
    obtain ⟨hy, hys⟩ := hl
    by_cases h : taskLe x y = true
    · rw [insertByL, if_pos h]
      refine List.Pairwise.cons ?_ (List.Pairwise.cons hy hys)
      intro z hz
      rcases List.mem_cons.mp hz with rfl | hz'
      · exact h
      · exact taskLe_trans x y z h (hy z hz')
    · rw [insertByL, if_neg h]
      refine List.Pairwise.cons ?_ (ih hys)
      intro z hz
      rcases (mem_insertByL taskLe x z ys).mp hz with hzx | hz'
      · rcases taskLe_total x y with h' | h'
        · exact absurd h' h
        · rw [hzx]; exact h'
      · exact hy z hz'

lemma pairwise_sortByL (l : List Task) :
    (sortByL taskLe l).Pairwise (fun a b => taskLe a b = true) := by
  induction l with
  | nil => simp [sortByL]
  | cons t rest ih =>
    exact pairwise_insertByL t (rest.foldr (insertByL taskLe) []) ih

lemma statBump_fold (l : List Task) (acc : TaskStats) :
    (l.foldl statBump acc).total = acc.total ∧
    (l.foldl statBump acc).pending + (l.foldl statBump acc).in_progress +
        (l.foldl statBump acc).completed + (l.foldl statBump acc).failed +
        (l.foldl statBump acc).cancelled =
      acc.pending + acc.in_progress + acc.completed + acc.failed +
        acc.cancelled + l.length ∧
    (l.foldl statBump acc).high + (l.foldl statBump acc).medium +
        (l.foldl statBump acc).low =
      acc.high + acc.medium + acc.low + l.length := by
  induction l generalizing acc with
  | nil => simp
  | cons t rest ih =>
    simp only [List.foldl_cons, List.length_cons]
    obtain ⟨h1, h2, h3⟩ := ih (statBump acc t)
    have hb : (statBump acc t).total = acc.total ∧
        (statBump acc t).pending + (statBump acc t).in_progress +
            (statBump acc t).completed + (statBump acc t).failed +
            (statBump acc t).cancelled =
          acc.pending + acc.in_progress + acc.completed + acc.failed +
            acc.cancelled + 1 ∧
        (statBump acc t).high + (statBump acc t).medium + (statBump acc t).low =
          acc.high + acc.medium + acc.low + 1 := by
      cases ht : t.status <;> cases hp : t.priority <;>
        simp [statBump, ht, hp] <;> omega
    refine ⟨?_, ?_, ?_⟩
    · omega
    · omega
    · omega

lemma find?_map_replace (ts : List Task) (tid : String) (t t' : Task)
    (h : ts.find? (fun u => u.id == tid) = some t) (h' : t'.id = tid) :
    (ts.map (fun u => if u.id == t'.id then t' else u)).find?
      (fun u => u.id == tid) = some t' := by
  induction ts with
  | nil => simp at h
  | cons v rest ih =>
    by_cases hv : (v.id == tid) = true
    · have hveq : v.id = tid := by simpa using hv
      simp only [List.map_cons]
      rw [if_pos (by simp [hveq, h'])]
      rw [List.find?_cons_of_pos _ (by simp [h'])]
    · rw [List.find?_cons_of_neg _ (by simpa using hv)] at h
      simp only [List.map_cons]
      have hvne : v.id ≠ tid := by simpa using hv
      rw [if_neg (by simp [h', hvne])]
      rw [List.find?_cons_of_neg _ (by simpa using hv)]
      exact ih h

lemma dictGet_dictSet (ts : List Task) (tid : String) (t t' : Task)
    (h : dictGet ts tid = some t) (h' : t'.id = tid) :
    dictGet (dictSet ts t') tid = some t' := by
  have hid : t.id = tid := by simpa using List.find?_some h
  have hmem : t ∈ ts := List.mem_of_find?_eq_some h
  unfold dictGet dictSet
  rw [if_pos (List.any_eq_true.mpr ⟨t, hmem, by simp [hid, h']⟩)]
  exact find?_map_replace ts tid t t' h h'

/-! ## Claim theorems for the task store -/

/-- C1: starting from an empty store, after any sequence of
`create_task` / `assign_task` / `update_task_status` calls, every task
held in memory has exactly one on-disk file named `<id>.json` across the
three status directories (the completed directory also holding failed and
cancelled tasks), and that file's directory is the one matching the
task's current in-memory status: the file exists in a directory `d` if
and only if `d` is the directory assigned to the task's status. -/
theorem task_store_single_location_invariant (ops : List TMOp) (t : Task)
    (ht : t ∈ (runTMOps initTM ops).tasks) (d : TaskDir) :
    (runTMOps initTM ops).disk t.id d = true ↔ d = statusDir t.status :=
  TMInv_run ops t ht d

/-- Witness for C1: after creating and assigning task `t1`, its file is
exactly in the in-progress directory. -/
theorem task_store_single_location_invariant_witness :
    demoTask ∈ (runTMOps initTM demoOps).tasks ∧
      ((runTMOps initTM demoOps).disk demoTask.id TaskDir.inProgressDir = true ↔
        TaskDir.inProgressDir = statusDir demoTask.status) :=
  ⟨by decide,
   task_store_single_location_invariant demoOps demoTask (by decide)
     TaskDir.inProgressDir⟩

/-- C5: `assign_task` fails and leaves the state (task record and disk)
entirely unchanged when the task does not exist or when its status is not
pending; when the status is exactly pending it succeeds, records
`assigned_to`, sets the status to in-progress with `started_at = now`,
and the task's file afterwards exists exactly in the in-progress
directory while every other task's files are untouched. -/
theorem assign_pending_guard (s : TMState) (tid aid : String) (now : Nat) :
    (dictGet s.tasks tid = none → assignTask s tid aid now = (s, false)) ∧
    (∀ t, dictGet s.tasks tid = some t → t.status ≠ TaskStatus.pending →
      assignTask s tid aid now = (s, false)) ∧
    (∀ t, dictGet s.tasks tid = some t → t.status = TaskStatus.pending →
      (assignTask s tid aid now).2 = true ∧
      dictGet (assignTask s tid aid now).1.tasks tid =
        some { t with assigned_to := some aid
                      status := TaskStatus.in_progress
                      started_at := some now } ∧
      (∀ d, ((assignTask s tid aid now).1.disk tid d = true ↔
        d = TaskDir.inProgressDir)) ∧
      (∀ i, i ≠ tid → ∀ d, (assignTask s tid aid now).1.disk i d = s.disk i d)) := by
  refine ⟨?_, ?_, ?_⟩
  · intro h
    simp [assignTask, h]
  · intro t ht hst
    simp [assignTask, ht, hst]
  · intro t ht hst
    have hid : t.id = tid := by simpa using List.find?_some ht
    refine ⟨?_, ?_, ?_, ?_⟩
    · simp [assignTask, ht, hst]
    · simp only [assignTask, ht, hst]
      simp only [ne_eq, not_true_eq_false, if_false]
      exact dictGet_dictSet s.tasks tid t _ ht hid
    · intro d
      simp only [assignTask, ht, hst, ne_eq, not_true_eq_false, if_false]
      show saveTask s.disk _ tid d = true ↔ d = TaskDir.inProgressDir
      rw [saveTask_spec]
      simp [hid, statusDir]
    · intro i hi d
      simp only [assignTask, ht, hst, ne_eq, not_true_eq_false, if_false]
      show saveTask s.disk _ i d = s.disk i d
      rw [saveTask_spec]
      simp [hid, hi]

/-- Witness for C5: assigning the completed task `b` fails and leaves the
store unchanged; assigning the pending task `a` succeeds. -/
theorem assign_pending_guard_witness :
    assignTask guardState "b" "w" 3 = (guardState, false) ∧
      (assignTask guardState "a" "w" 3).2 = true :=
  ⟨(assign_pending_guard guardState "b" "w" 3).2.1 guardTaskB (by decide)
     (by decide),
   ((assign_pending_guard guardState "a" "w" 3).2.2 guardTaskA (by decide)
     (by decide)).1⟩

/-- C6: `list_tasks` returns tasks sorted by priority rank
high < medium < low and, within equal priority, by `created_at`
ascending (every returned list is pairwise ordered under that key);
consequently, for three pending tasks created in the order low-priority,
high-priority, medium-priority, `get_next_pending_task` returns the
high-priority task first, then — after each returned task leaves pending
status — the medium-priority one, then the low-priority one. -/
theorem list_tasks_priority_order :
    (∀ (s : TMState) (st : Option TaskStatus) (a : Option String)
        (p : Option TaskPriority),
      (listTasks s st a p).Pairwise (fun t u => taskLe t u = true)) ∧
    (getNextPendingTask queueState0 none).map Task.id = some "tH" ∧
    (getNextPendingTask queueState0 none).map Task.priority =
      some TaskPriority.high ∧
    (getNextPendingTask queueState1 none).map Task.id = some "tM" ∧
    (getNextPendingTask queueState1 none).map Task.priority =
      some TaskPriority.medium ∧
    (getNextPendingTask queueState2 none).map Task.id = some "tL" ∧
    (getNextPendingTask queueState2 none).map Task.priority =
      some TaskPriority.low := by
  refine ⟨fun s st a p => ?_, by decide, by decide, by decide, by decide,
    by decide, by decide⟩
  exact pairwise_sortByL _

/-- C10: in every task-store state (in particular every reachable one),
`get_statistics` reports a `total` equal to the number of tasks in the
in-memory index, equal to the sum of the five per-status counters, and
equal to the sum of the three per-priority counters. -/
theorem statistics_totals_consistent (s : TMState) :
    (getStatistics s).total = s.tasks.length ∧
    (getStatistics s).total =
      (getStatistics s).pending + (getStatistics s).in_progress +
        (getStatistics s).completed + (getStatistics s).failed +
        (getStatistics s).cancelled ∧
    (getStatistics s).total =
      (getStatistics s).high + (getStatistics s).medium +
        (getStatistics s).low := by
  obtain ⟨h1, h2, h3⟩ := statBump_fold s.tasks
    { total := s.tasks.length, pending := 0, in_progress := 0
      completed := 0, failed := 0, cancelled := 0
      high := 0, medium := 0, low := 0 }
  unfold getStatistics
  refine ⟨by rw [h1], ?_, ?_⟩
  · rw [h1, h2]; simp
  · rw [h1, h3]; simp

/-! ## Character-list lemmas for the mailbox document format -/

lemma noPair_tail {c : Char} {l : List Char} (h : noPair (c :: l) = true) :
    noPair l = true := by
  cases l with
  | nil => rfl
  | cons b bs =>
    unfold noPair at h
    exact (Bool.and_eq_true _ _ ▸ h).2

lemma noPair_cons_pair {c d : Char} {l : List Char}
    (h : noPair (c :: d :: l) = true) : ¬(c = '-' ∧ d = '-') := by
  unfold noPair at h
  intro hcd
  simp [hcd.1, hcd.2] at h

lemma noPair_cons (c : Char) (l : List Char) (hl : noPair l = true)
    (hcl : c ≠ '-' ∨ l.head? ≠ some '-') : noPair (c :: l) = true := by
  cases l with
  | nil => rfl
  | cons b bs =>
    unfold noPair
    rw [Bool.and_eq_true]
    refine ⟨?_, hl⟩
    rcases hcl with hc | hb
    · simp [hc]
    · have hbne : b ≠ '-' := by simpa using hb
      simp [hbne]

lemma noPair_append (a b : List Char) (ha : noPair a = true)
    (hb : noPair b = true)
    (hj : a.getLast? ≠ some '-' ∨ b.head? ≠ some '-') :
    noPair (a ++ b) = true := by
  induction a with
  | nil => simpa using hb
  | cons c a' ih =>
    cases a' with
    | nil =>
      cases b with
      | nil => rfl
      | cons d b' =>
        refine noPair_cons c (d :: b') hb ?_
        rcases hj with hx | hx
        · left; simpa using hx
        · right; simpa using hx
    | cons e a'' =>
      have hrest : noPair (e :: a'' ++ b) = true := by
        refine ih (noPair_tail ha) ?_
        rcases hj with hx | hx
        · left; simpa using hx
        · right; exact hx
      refine noPair_cons c _ hrest ?_
      have hpair := noPair_cons_pair ha
      by_cases hc : c = '-'
      · right
        have he : e ≠ '-' := fun he' => hpair ⟨hc, he'⟩
        simpa using he
      · left; exact hc

lemma noPair_concat_dash {a : List Char} (ha : noPair a = true)
    (hlast : a.getLast? ≠ some '-') : noPair (a ++ ['-']) = true :=
  noPair_append a ['-'] ha rfl (Or.inl hlast)

lemma splitTriple_noPair : ∀ l : List Char, noPair l = true → splitTriple l = [l]
  | [], _ => rfl
  | [_], _ => rfl
  | [_, _], _ => rfl
  | c :: d :: e :: rest, h => by
    have hcd := noPair_cons_pair h
    have ihh := splitTriple_noPair (d :: e :: rest) (noPair_tail h)
    rw [splitTriple, if_neg (fun hx => hcd ⟨hx.1, hx.2.1⟩), ihh]

lemma splitTriple_append : ∀ a b : List Char, noPair (a ++ ['-']) = true →
    splitTriple (a ++ '-' :: '-' :: '-' :: b) = a :: splitTriple b
  | [], b, _ => by
    rw [List.nil_append, splitTriple, if_pos ⟨rfl, rfl, rfl⟩]
  | [c], b, h => by
    have hc : c ≠ '-' := by
      intro hc
      subst hc
      simp [noPair] at h
    have hbase : splitTriple ('-' :: '-' :: '-' :: b) = [] :: splitTriple b := by
      rw [splitTriple, if_pos ⟨rfl, rfl, rfl⟩]
    rw [List.cons_append, List.nil_append, splitTriple,
      if_neg (fun hx => hc hx.1), hbase]
  | c :: d :: a'', b, h => by
    have hcd := @noPair_cons_pair c d (a'' ++ ['-'])
      (by simpa using h)
    have ihh := splitTriple_append (d :: a'') b (noPair_tail (by simpa using h))
    cases a'' with
    | nil =>
      simp only [List.cons_append, List.nil_append] at ihh ⊢
      rw [splitTriple, if_neg (fun hx => hcd ⟨hx.1, hx.2.1⟩), ihh]
    | cons e a''' =>
      simp only [List.cons_append] at ihh ⊢
      rw [splitTriple, if_neg (fun hx => hcd ⟨hx.1, hx.2.1⟩), ihh]

lemma splitNl_no (l : List Char) (h : '\n' ∉ l) : splitNl l = [l] := by
  induction l with
  | nil => rfl
  | cons c rest ih =>
    have hc : c ≠ '\n' := fun hx => h (hx ▸ List.mem_cons_self c rest)
    have hrest : '\n' ∉ rest := fun hx => h (List.mem_cons_of_mem c hx)
    rw [splitNl, if_neg hc, ih hrest]

lemma splitNl_append (a b : List Char) (h : '\n' ∉ a) :
    splitNl (a ++ '\n' :: b) = a :: splitNl b := by
  induction a with
  | nil =>
    rw [List.nil_append, splitNl, if_pos rfl]
  | cons c a' ih =>
    have hc : c ≠ '\n' := fun hx => h (hx ▸ List.mem_cons_self c a')
    have ha' : '\n' ∉ a' := fun hx => h (List.mem_cons_of_mem c hx)
    rw [List.cons_append, splitNl, if_neg hc, ih ha']

lemma dropWhile_cons_false {p : Char → Bool} {c : Char} {l : List Char}
    (h : p c = false) : (c :: l).dropWhile p = c :: l := by
  simp [List.dropWhile_cons, h]

lemma dropWhile_head_false {p : Char → Bool} {l : List Char}
    (h : ∀ c, l.head? = some c → p c = false) : l.dropWhile p = l := by
  cases l with
  | nil => rfl
  | cons a as => exact dropWhile_cons_false (h a rfl)

lemma pyStrip_keep (l : List Char)
    (h1 : ∀ c, l.head? = some c → pyIsSpace c = false)
    (h2 : ∀ c, l.getLast? = some c → pyIsSpace c = false) :
    pyStrip l = l := by
  unfold pyStrip
  rw [dropWhile_head_false h1]
  rw [dropWhile_head_false (fun c hc => h2 c (by rwa [List.head?_reverse] at hc))]
  exact List.reverse_reverse l

lemma pyStrip_cons_space {c : Char} (l : List Char) (h : pyIsSpace c = true) :
    pyStrip (c :: l) = pyStrip l := by
  unfold pyStrip
  rw [List.dropWhile_cons, if_pos h]

lemma pyStrip_concat_space {c : Char} (l : List Char) (h : pyIsSpace c = true) :
    pyStrip (l ++ [c]) = pyStrip l := by
  induction l with
  | nil =>
    unfold pyStrip
    simp [List.dropWhile_cons, h]
  | cons a as ih =>
    by_cases ha : pyIsSpace a = true
    · rw [List.cons_append, pyStrip_cons_space _ ha, pyStrip_cons_space _ ha, ih]
    · have hx : pyIsSpace a = false := by simpa using ha
      unfold pyStrip
      rw [List.cons_append, dropWhile_cons_false hx, dropWhile_cons_false hx]
      have hrev : (a :: (as ++ [c])).reverse = c :: (a :: as).reverse := by
        rw [show a :: (as ++ [c]) = (a :: as) ++ [c] from rfl]
        simp
      rw [hrev, List.dropWhile_cons, if_pos h]

lemma pyStrip_sandwich (m : List Char)
    (h1 : ∀ c, m.head? = some c → pyIsSpace c = false)
    (h2 : ∀ c, m.getLast? = some c → pyIsSpace c = false) :
    pyStrip ('\n' :: (m ++ ['\n'])) = m := by
  rw [pyStrip_cons_space _ (by rfl), pyStrip_concat_space _ (by rfl),
    pyStrip_keep m h1 h2]

lemma isPre_append_self (x y : List Char) : isPre x (x ++ y) = true := by
  induction x with
  | nil => rfl
  | cons c cs ih => simpa [isPre] using ih

lemma endsWithL_append (suf l : List Char) : endsWithL suf (l ++ suf) = true := by
  unfold endsWithL
  rw [List.reverse_append]
  exact isPre_append_self _ _

lemma getLast?_append_some {a b : List Char} {c : Char}
    (h : b.getLast? = some c) : (a ++ b).getLast? = some c := by
  rw [List.getLast?_append, h]
  rfl

/-! ## Digest lemmas -/

lemma charHex6_mem {c x : Char} (hx : x ∈ charHex6 c) :
    x ∈ 'x' :: "0123456789abcdef".data := by
  have hd : ∀ n : Nat, hexDigit n ∈ 'x' :: "0123456789abcdef".data := by
    intro n
    unfold hexDigit
    rcases Nat.lt_or_ge n ("0123456789abcdef".data.length) with h | h
    · right
      rw [List.getD_eq_getElem _ _ h]
      exact List.getElem_mem h
    · have hx9 : "0123456789abcdef".data.getD n 'x' = 'x' := by
        simp [List.getD, List.getElem?_eq_none h]
      rw [hx9]
      exact List.mem_cons_self _ _
  simp only [charHex6, List.mem_cons] at hx
  rcases hx with h | h | h | h | h | h | h
  all_goals first
    | (rw [h]; exact hd _)
    | simp at h

lemma md5HexL_mem {l : List Char} {x : Char} (hx : x ∈ md5HexL l) :
    x ∈ 'd' :: 'x' :: "0123456789abcdef".data := by
  unfold md5HexL at hx
  rcases List.mem_cons.mp hx with h | h
  · rw [h]; exact List.mem_cons_self _ _
  · right
    clear hx
    induction l with
    | nil => simp at h
    | cons c cs ih =>
      simp only [List.foldr_cons, List.mem_append] at h
      rcases h with h | h
      · exact charHex6_mem h
      · exact ih h

lemma md5HexL_safe {l : List Char} {x : Char} (hx : x ∈ md5HexL l) :
    pyIsSpace x = false ∧ x ≠ '"' ∧ x ≠ '-' := by
  have h := md5HexL_mem hx
  fin_cases h <;> simp [pyIsSpace]

lemma hexDigit_inj : ∀ a, a < 16 → ∀ b, b < 16 →
    hexDigit a = hexDigit b → a = b := by decide

lemma char_toNat_lt (c : Char) : c.toNat < 16777216 := by
  have h := c.valid
  show c.val.toNat < 16777216
  rcases h with h | ⟨h1, h2⟩ <;> omega

lemma charHex6_inj {c d : Char} (h : charHex6 c = charHex6 d) : c = d := by
  have hmod : ∀ n : Nat, n % 16 < 16 := fun n => Nat.mod_lt n (by norm_num)
  simp only [charHex6, List.cons.injEq, and_true] at h
  obtain ⟨h5, h4, h3, h2, h1, h0⟩ := h
  have e5 := hexDigit_inj _ (hmod _) _ (hmod _) h5
  have e4 := hexDigit_inj _ (hmod _) _ (hmod _) h4
  have e3 := hexDigit_inj _ (hmod _) _ (hmod _) h3
  have e2 := hexDigit_inj _ (hmod _) _ (hmod _) h2
  have e1 := hexDigit_inj _ (hmod _) _ (hmod _) h1
  have e0 := hexDigit_inj _ (hmod _) _ (hmod _) h0
  have hc := char_toNat_lt c
  have hd := char_toNat_lt d
  have : c.toNat = d.toNat := by omega
  have := congrArg Char.ofNat this
  simpa [Char.ofNat_toNat] using this

lemma hexBody_inj : ∀ a b : List Char,
    a.foldr (fun c acc => charHex6 c ++ acc) [] =
      b.foldr (fun c acc => charHex6 c ++ acc) [] → a = b
  | [], [], _ => rfl
  | [], d :: bs, h => by
    have := congrArg List.length h
    simp [charHex6] at this
  | c :: as, [], h => by
    have := congrArg List.length h
    simp [charHex6] at this
  | c :: as, d :: bs, h => by
    simp only [List.foldr_cons] at h
    have hlen : (charHex6 c).length = (charHex6 d).length := by
      simp [charHex6]
    obtain ⟨hh, ht⟩ := List.append_inj h hlen
    have := hexBody_inj as bs ht
    rw [charHex6_inj hh, this]

lemma md5HexL_inj {a b : List Char} (h : md5HexL a = md5HexL b) : a = b := by
  unfold md5HexL at h
  injection h with h1 h2
  exact hexBody_inj a b h2

/-! ## Structure of the encoded document -/

lemma fieldOk_char {s : String} (h : fieldOk s) :
    ∀ c ∈ s.data, c ≠ '"' ∧ c ≠ '\\' ∧ c ≠ '\n' ∧ c ≠ '\r' := by
  intro c hc
  obtain ⟨h1, h2, h3, h4⟩ := h.2 c hc
  refine ⟨h3, h4, ?_, ?_⟩
  · intro hx; rw [hx] at h1; simp at h1
  · intro hx; rw [hx] at h1; simp at h1

lemma getLast?_cons_some {c : Char} {l : List Char} {x : Char}
    (h : l.getLast? = some x) : (c :: l).getLast? = some x :=
  @getLast?_append_some [c] l x h

lemma noPair_metaLine (k : String) (v : List Char) (hk : noPair k.data = true)
    (hv : noPair v = true) : noPair (metaLine k v) = true := by
  have i1 : noPair (v ++ ['"']) = true :=
    noPair_append v ['"'] hv rfl (Or.inr (by simp))
  have i2 : noPair ('"' :: (v ++ ['"'])) = true :=
    noPair_cons _ _ i1 (Or.inl (by decide))
  have i3 : noPair (' ' :: '"' :: (v ++ ['"'])) = true :=
    noPair_cons _ _ i2 (Or.inl (by decide))
  have i4 : noPair (':' :: ' ' :: '"' :: (v ++ ['"'])) = true :=
    noPair_cons _ _ i3 (Or.inl (by decide))
  have i5 : noPair (k.data ++ ':' :: ' ' :: '"' :: (v ++ ['"'])) = true :=
    noPair_append _ _ hk i4 (Or.inr (by simp))
  have i6 : noPair (' ' :: (k.data ++ ':' :: ' ' :: '"' :: (v ++ ['"']))) = true := by
    refine noPair_cons _ _ i5 ?_
    left
    decide
  exact noPair_cons _ _ i6 (Or.inl (by decide))

lemma getLast?_metaLine (k : String) (v : List Char) :
    (metaLine k v).getLast? = some '"' := by
  unfold metaLine
  refine getLast?_cons_some (getLast?_cons_some ?_)
  refine getLast?_append_some ?_
  refine getLast?_cons_some (getLast?_cons_some (getLast?_cons_some ?_))
  exact List.getLast?_concat v

lemma nl_not_mem_metaLine (k : String) (v : List Char) (hk : '\n' ∉ k.data)
    (hv : '\n' ∉ v) : '\n' ∉ metaLine k v := by
  unfold metaLine
  intro hmem
  rcases List.mem_cons.mp hmem with h | h
  · exact absurd h.symm (by decide)
  rcases List.mem_cons.mp h with h | h
  · exact absurd h.symm (by decide)
  rcases List.mem_append.mp h with h | h
  · exact hk h
  rcases List.mem_cons.mp h with h | h
  · exact absurd h.symm (by decide)
  rcases List.mem_cons.mp h with h | h
  · exact absurd h.symm (by decide)
  rcases List.mem_cons.mp h with h | h
  · exact absurd h.symm (by decide)
  rcases List.mem_append.mp h with h | h
  · exact hv h
  · simp at h

lemma head?_metaCore (m : Message) : (metaCore m).head? = some 'm' := rfl

lemma getLast?_metaCore (m : Message) : (metaCore m).getLast? = some '"' := by
  unfold metaCore
  refine getLast?_append_some (getLast?_cons_some ?_)
  refine getLast?_append_some (getLast?_cons_some ?_)
  refine getLast?_append_some (getLast?_cons_some ?_)
  refine getLast?_append_some (getLast?_cons_some ?_)
  refine getLast?_append_some (getLast?_cons_some ?_)
  refine getLast?_append_some (getLast?_cons_some ?_)
  exact getLast?_metaLine _ _

lemma noPair_metaCore (m : Message) (hw : MsgWf m) :
    noPair (metaCore m) = true := by
  obtain ⟨hid, hty, hsd, hrc, hts, hpr, _, _⟩ := hw
  have l6 : noPair (metaLine "priority" m.priority.data) = true :=
    noPair_metaLine _ _ (by decide) hpr.1
  have x5 : noPair (metaLine "timestamp" m.timestamp.data ++
      '\n' :: metaLine "priority" m.priority.data) = true := by
    refine noPair_append _ _ (noPair_metaLine _ _ (by decide) hts.1) ?_
      (Or.inr (by simp))
    exact noPair_cons _ _ l6 (Or.inl (by decide))
  have x4 : noPair (metaLine "to" m.recipient.data ++
      '\n' :: (metaLine "timestamp" m.timestamp.data ++
        '\n' :: metaLine "priority" m.priority.data)) = true := by
    refine noPair_append _ _ (noPair_metaLine _ _ (by decide) hrc.1) ?_
      (Or.inr (by simp))
    exact noPair_cons _ _ x5 (Or.inl (by decide))
  have x3 : noPair (metaLine "from" m.sender.data ++
      '\n' :: (metaLine "to" m.recipient.data ++
        '\n' :: (metaLine "timestamp" m.timestamp.data ++
          '\n' :: metaLine "priority" m.priority.data))) = true := by
    refine noPair_append _ _ (noPair_metaLine _ _ (by decide) hsd.1) ?_
      (Or.inr (by simp))
    exact noPair_cons _ _ x4 (Or.inl (by decide))
  have x2 : noPair (metaLine "type" m.type.data ++
      '\n' :: (metaLine "from" m.sender.data ++
        '\n' :: (metaLine "to" m.recipient.data ++
          '\n' :: (metaLine "timestamp" m.timestamp.data ++
            '\n' :: metaLine "priority" m.priority.data)))) = true := by
    refine noPair_append _ _ (noPair_metaLine _ _ (by decide) hty.1) ?_
      (Or.inr (by simp))
    exact noPair_cons _ _ x3 (Or.inl (by decide))
  have x1 : noPair (metaLine "id" m.id.data ++
      '\n' :: (metaLine "type" m.type.data ++
        '\n' :: (metaLine "from" m.sender.data ++
          '\n' :: (metaLine "to" m.recipient.data ++
            '\n' :: (metaLine "timestamp" m.timestamp.data ++
              '\n' :: metaLine "priority" m.priority.data))))) = true := by
    refine noPair_append _ _ (noPair_metaLine _ _ (by decide) hid.1) ?_
      (Or.inr (by simp))
    exact noPair_cons _ _ x2 (Or.inl (by decide))
  unfold metaCore
  refine noPair_append _ _ (by decide) ?_ (Or.inr (by simp))
  exact noPair_cons _ _ x1 (Or.inl (by decide))

lemma splitNl_metaCore (m : Message) (hw : MsgWf m) :
    splitNl (metaCore m) =
      ["metadata:".data, metaLine "id" m.id.data, metaLine "type" m.type.data,
       metaLine "from" m.sender.data, metaLine "to" m.recipient.data,
       metaLine "timestamp" m.timestamp.data,
       metaLine "priority" m.priority.data] := by
  obtain ⟨hid, hty, hsd, hrc, hts, hpr, _, _⟩ := hw
  have nid := nl_not_mem_metaLine "id" m.id.data (by decide)
    (fun hc => ((fieldOk_char hid) '\n' hc).2.2.1 rfl)
  have nty := nl_not_mem_metaLine "type" m.type.data (by decide)
    (fun hc => ((fieldOk_char hty) '\n' hc).2.2.1 rfl)
  have nsd := nl_not_mem_metaLine "from" m.sender.data (by decide)
    (fun hc => ((fieldOk_char hsd) '\n' hc).2.2.1 rfl)
  have nrc := nl_not_mem_metaLine "to" m.recipient.data (by decide)
    (fun hc => ((fieldOk_char hrc) '\n' hc).2.2.1 rfl)
  have nts := nl_not_mem_metaLine "timestamp" m.timestamp.data (by decide)
    (fun hc => ((fieldOk_char hts) '\n' hc).2.2.1 rfl)
  have npr := nl_not_mem_metaLine "priority" m.priority.data (by decide)
    (fun hc => ((fieldOk_char hpr) '\n' hc).2.2.1 rfl)
  unfold metaCore
  rw [splitNl_append _ _ (by decide)]
  rw [splitNl_append _ _ nid]
  rw [splitNl_append _ _ nty]
  rw [splitNl_append _ _ nsd]
  rw [splitNl_append _ _ nrc]
  rw [splitNl_append _ _ nts]
  rw [splitNl_no _ npr]

lemma noPair_of_no_dash (l : List Char) (h : ∀ c ∈ l, c ≠ '-') :
    noPair l = true := by
  induction l with
  | nil => rfl
  | cons c rest ih =>
    refine noPair_cons c rest (ih (fun x hx => h x (List.mem_cons_of_mem c hx))) ?_
    exact Or.inl (h c (List.mem_cons_self c rest))

lemma pyStrip_metaPart (m : Message) : pyStrip (metaPart m) = metaCore m := by
  unfold metaPart
  refine pyStrip_sandwich _ ?_ ?_
  · intro c hc
    rw [head?_metaCore] at hc
    obtain rfl : 'm' = c := Option.some.inj hc
    decide
  · intro c hc
    rw [getLast?_metaCore] at hc
    obtain rfl : '"' = c := Option.some.inj hc
    decide

lemma getLast?_metaPart (m : Message) : (metaPart m).getLast? = some '\n' := by
  unfold metaPart
  exact getLast?_cons_some (getLast?_append_some rfl)

lemma noPair_metaPart (m : Message) (hw : MsgWf m) :
    noPair (metaPart m) = true := by
  unfold metaPart
  refine noPair_cons _ _ ?_ (Or.inl (by decide))
  refine noPair_append _ _ (noPair_metaCore m hw) (by decide) ?_
  rw [getLast?_metaCore]
  exact Or.inl (by decide)

lemma getLast?_contentPart (m : Message) :
    (contentPart m).getLast? = some '\n' := by
  unfold contentPart
  refine getLast?_cons_some (getLast?_cons_some (getLast?_append_some
    (getLast?_cons_some (getLast?_cons_some (getLast?_append_some rfl)))))

lemma noPair_contentPart (m : Message) (hct : contentOk m.content) :
    noPair (contentPart m) = true := by
  unfold contentPart
  have i1 : noPair (m.content.data ++ ['\n', '\n']) = true :=
    noPair_append _ _ hct.1 (by decide) (Or.inr (by simp))
  have i2 : noPair ('\n' :: (m.content.data ++ ['\n', '\n'])) = true :=
    noPair_cons _ _ i1 (Or.inl (by decide))
  have i3 : noPair ('\n' :: '\n' :: (m.content.data ++ ['\n', '\n'])) = true :=
    noPair_cons _ _ i2 (Or.inl (by decide))
  have i4 : noPair ("## Content".data ++
      '\n' :: '\n' :: (m.content.data ++ ['\n', '\n'])) = true :=
    noPair_append _ _ (by decide) i3 (Or.inr (by simp))
  have i5 : noPair ('\n' :: ("## Content".data ++
      '\n' :: '\n' :: (m.content.data ++ ['\n', '\n']))) = true :=
    noPair_cons _ _ i4 (Or.inl (by decide))
  exact noPair_cons _ _ i5 (Or.inl (by decide))

lemma checksum_data (m : Message) (hck : m.checksum = calcChecksum m) :
    m.checksum.data = md5HexL ((m.id ++ m.type ++ m.sender ++ m.recipient).data ++
      pyStrip m.content.data) := by
  rw [hck]
  rfl

lemma noPair_checksum (m : Message) (hck : m.checksum = calcChecksum m) :
    noPair m.checksum.data = true := by
  refine noPair_of_no_dash _ ?_
  intro c hc
  rw [checksum_data m hck] at hc
  exact (md5HexL_safe hc).2.2

lemma getLast?_trailerPart (m : Message) :
    (trailerPart m).getLast? = some '\n' := by
  unfold trailerPart
  refine getLast?_cons_some (getLast?_append_some (getLast?_append_some ?_))
  rfl

lemma noPair_trailerPart (m : Message) (hck : m.checksum = calcChecksum m) :
    noPair (trailerPart m) = true := by
  unfold trailerPart
  have i1 : noPair (m.checksum.data ++ '"' :: ['\n']) = true :=
    noPair_append _ _ (noPair_checksum m hck) (by decide) (Or.inr (by simp))
  have i2 : noPair ("checksum: \"".data ++ (m.checksum.data ++ '"' :: ['\n'])) = true :=
    noPair_append _ _ (by decide) i1 (Or.inl (by decide))
  exact noPair_cons _ _ i2 (Or.inl (by decide))

lemma splitTriple_doc (m : Message) (hw : MsgWf m) :
    splitTriple (toMarkdownL m) =
      ["# Task Message\n".data, metaPart m, contentPart m, trailerPart m] := by
  have hck : m.checksum = calcChecksum m := hw.2.2.2.2.2.2.2
  have h1 : noPair ("# Task Message\n".data ++ ['-']) = true := by decide
  have h2 : noPair (metaPart m ++ ['-']) = true := by
    refine noPair_concat_dash (noPair_metaPart m hw) ?_
    rw [getLast?_metaPart]
    decide
  have h3 : noPair (contentPart m ++ ['-']) = true := by
    refine noPair_concat_dash (noPair_contentPart m hw.2.2.2.2.2.2.1) ?_
    rw [getLast?_contentPart]
    decide
  have h4 : noPair (trailerPart m) = true := noPair_trailerPart m hck
  have hre : toMarkdownL m =
      "# Task Message\n".data ++ '-' :: '-' :: '-' ::
        (metaPart m ++ '-' :: '-' :: '-' ::
          (contentPart m ++ '-' :: '-' :: '-' :: trailerPart m)) := by
    unfold toMarkdownL
    simp [List.cons_append, List.append_assoc]
  rw [hre, splitTriple_append _ _ h1, splitTriple_append _ _ h2,
    splitTriple_append _ _ h3, splitTriple_noPair _ h4]

/-! ## Decoding the metadata block -/

lemma parseQuoted_ok (v : List Char) (hv : ∀ c ∈ v, c ≠ '"' ∧ c ≠ '\\') :
    parseQuoted ('"' :: (v ++ ['"'])) = Except.ok v := by
  unfold parseQuoted
  simp only [List.getLast?_concat, List.dropLast_concat]
  rw [if_pos ?hall]
  case hall =>
    rw [List.all_eq_true]
    intro c hc
    have := hv c hc
    simp [this.1, this.2]

lemma parseMetaLine_metaLine (k : String) (v : List Char)
    (hsf : splitFirst (':' :: [' ']) (k.data ++ ':' :: ' ' :: '"' :: (v ++ ['"'])) =
      some (k.data, '"' :: (v ++ ['"'])))
    (hv : ∀ c ∈ v, c ≠ '"' ∧ c ≠ '\\') :
    parseMetaLine (metaLine k v) = Except.ok (k.data, v) := by
  unfold parseMetaLine metaLine
  rw [if_pos (by rfl)]
  simp only [List.drop_succ_cons, List.drop_zero]
  simp only [hsf, parseQuoted_ok v hv]

lemma fieldOk_qs {s : String} (h : fieldOk s) :
    ∀ c ∈ s.data, c ≠ '"' ∧ c ≠ '\\' := by
  intro c hc
  exact ⟨(fieldOk_char h c hc).1, (fieldOk_char h c hc).2.1⟩

lemma yamlMeta_metaCore (m : Message) (hw : MsgWf m) :
    yamlMeta (metaCore m) = Except.ok (some (metaKVs m)) := by
  obtain ⟨hid, hty, hsd, hrc, hts, hpr, _, _⟩ := hw
  have p1 := parseMetaLine_metaLine "id" m.id.data (by rfl) (fieldOk_qs hid)
  have p2 := parseMetaLine_metaLine "type" m.type.data (by rfl) (fieldOk_qs hty)
  have p3 := parseMetaLine_metaLine "from" m.sender.data (by rfl) (fieldOk_qs hsd)
  have p4 := parseMetaLine_metaLine "to" m.recipient.data (by rfl) (fieldOk_qs hrc)
  have p5 := parseMetaLine_metaLine "timestamp" m.timestamp.data (by rfl)
    (fieldOk_qs hts)
  have p6 := parseMetaLine_metaLine "priority" m.priority.data (by rfl)
    (fieldOk_qs hpr)
  unfold yamlMeta
  rw [splitNl_metaCore m (by exact ⟨hid, hty, hsd, hrc, hts, hpr, by assumption, by assumption⟩)]
  simp only [mapME, p1, p2, p3, p4, p5, p6]
  simp [metaKVs]

/-! ## Decoding the content and checksum regions -/

lemma dropWhile_length_le (p : Char → Bool) (l : List Char) :
    (l.dropWhile p).length ≤ l.length := by
  induction l with
  | nil => simp
  | cons a as ih =>
    rw [List.dropWhile_cons]
    by_cases h : p a = true
    · rw [if_pos h]
      exact Nat.le_succ_of_le ih
    · rw [if_neg (by simpa using h)]

lemma pyStrip_length_le (l : List Char) : (pyStrip l).length ≤ l.length := by
  unfold pyStrip
  calc ((l.dropWhile pyIsSpace).reverse.dropWhile pyIsSpace).reverse.length
      = ((l.dropWhile pyIsSpace).reverse.dropWhile pyIsSpace).length := by
        rw [List.length_reverse]
    _ ≤ (l.dropWhile pyIsSpace).reverse.length := dropWhile_length_le _ _
    _ = (l.dropWhile pyIsSpace).length := by rw [List.length_reverse]
    _ ≤ l.length := dropWhile_length_le _ _

lemma trimmed_head (l : List Char) (h : pyStrip l = l) :
    ∀ c, l.head? = some c → pyIsSpace c = false := by
  intro c hc
  cases l with
  | nil => simp at hc
  | cons a as =>
    have hac : a = c := by simpa using hc
    subst hac
    by_contra hx
    have hsp : pyIsSpace a = true := by simpa using hx
    have heq := pyStrip_cons_space as hsp
    rw [h] at heq
    have hlen := congrArg List.length heq
    have hle := pyStrip_length_le as
    simp at hlen
    omega

lemma trimmed_last (l : List Char) (h : pyStrip l = l) :
    ∀ c, l.getLast? = some c → pyIsSpace c = false := by
  intro c hc
  by_contra hx
  have hsp : pyIsSpace c = true := by simpa using hx
  have hne : l ≠ [] := by
    intro hl
    rw [hl] at hc
    simp at hc
  have hdc : l.dropLast ++ [c] = l := by
    have hgl := List.dropLast_append_getLast hne
    have : l.getLast hne = c := by
      have := List.getLast?_eq_getLast l hne
      rw [hc] at this
      exact (Option.some.inj this).symm
    rwa [this] at hgl
  have h2 : pyStrip (l.dropLast ++ [c]) = l := by rw [hdc, h]
  rw [pyStrip_concat_space _ hsp] at h2
  have hlen := congrArg List.length h2
  have hle := pyStrip_length_le l.dropLast
  have hdl : l.dropLast.length = l.length - 1 := List.length_dropLast l
  have hpos : 0 < l.length := List.length_pos.mpr hne
  omega

lemma stripQuotes_wrap (l : List Char) (hne : l ≠ [])
    (h : ∀ c ∈ l, c ≠ '"') : stripQuotes ('"' :: (l ++ ['"'])) = l := by
  unfold stripQuotes
  have h1 : ('"' :: (l ++ ['"'])).dropWhile (fun c => c = '"') = l ++ ['"'] := by
    rw [List.dropWhile_cons, if_pos (by simp)]
    cases hl : l with
    | nil => exact absurd hl hne
    | cons a as =>
      rw [List.cons_append, List.dropWhile_cons,
        if_neg (by simpa using h a (hl ▸ List.mem_cons_self a as))]
  rw [h1]
  have h2 : (l ++ ['"']).reverse = '"' :: l.reverse := by simp
  rw [h2, List.dropWhile_cons, if_pos (by simp)]
  have h3 : l.reverse.dropWhile (fun c => c = '"') = l.reverse := by
    cases hr : l.reverse with
    | nil => rfl
    | cons b bs =>
      have hb : b ∈ l := by
        have : b ∈ l.reverse := hr ▸ List.mem_cons_self b bs
        simpa using this
      rw [List.dropWhile_cons, if_neg (by simpa using h b hb)]
  rw [h3, List.reverse_reverse]

lemma getLast?_append_ne (a b : List Char) (hb : b ≠ []) :
    (a ++ b).getLast? = b.getLast? := by
  rcases hg : b.getLast? with _ | c
  · exact absurd (List.getLast?_eq_none_iff.mp hg) hb
  · exact getLast?_append_some hg

lemma getLast?_cons_ne (c : Char) (b : List Char) (hb : b ≠ []) :
    (c :: b).getLast? = b.getLast? :=
  getLast?_append_ne [c] b hb

lemma contentFromSection_eq (m : Message) (hct : contentOk m.content) :
    contentFromSection (pyStrip (contentPart m)) = m.content.data := by
  by_cases hemp : m.content.data = []
  · have hps : pyStrip (contentPart m) = "## Content".data := by
      unfold contentPart
      rw [hemp]
      rw [pyStrip_cons_space _ (by rfl), pyStrip_cons_space _ (by rfl)]
      have hsh : "## Content".data ++ '\n' :: '\n' :: (([] : List Char) ++ ['\n', '\n']) =
          ((("## Content".data ++ ['\n']) ++ ['\n']) ++ ['\n']) ++ ['\n'] := by
        simp
      rw [hsh, pyStrip_concat_space _ (by rfl), pyStrip_concat_space _ (by rfl),
        pyStrip_concat_space _ (by rfl), pyStrip_concat_space _ (by rfl)]
      decide
    rw [hps]
    unfold contentFromSection
    rw [show splitFirst "## Content".data "## Content".data =
      some ([], []) from rfl]
    simp [hemp]
    rfl
  · have hlast := trimmed_last _ hct.2.1
    have hps : pyStrip (contentPart m) =
        "## Content".data ++ '\n' :: '\n' :: m.content.data := by
      unfold contentPart
      rw [pyStrip_cons_space _ (by rfl), pyStrip_cons_space _ (by rfl)]
      have hsh : "## Content".data ++ '\n' :: '\n' :: (m.content.data ++ ['\n', '\n']) =
          (("## Content".data ++ '\n' :: '\n' :: m.content.data) ++ ['\n']) ++ ['\n'] := by
        simp
      rw [hsh, pyStrip_concat_space _ (by rfl), pyStrip_concat_space _ (by rfl)]
      refine pyStrip_keep _ ?_ ?_
      · intro ch hch
        rw [show ("## Content".data ++ '\n' :: '\n' :: m.content.data).head? =
          some '#' from rfl] at hch
        obtain rfl : '#' = ch := Option.some.inj hch
        decide
      · intro ch hch
        rw [getLast?_append_ne _ _ (by simp), getLast?_cons_ne _ _ (by simp [hemp]),
          getLast?_cons_ne _ _ hemp] at hch
        exact hlast ch hch
    rw [hps]
    unfold contentFromSection
    rw [show splitFirst "## Content".data
        ("## Content".data ++ '\n' :: '\n' :: m.content.data) =
      some ([], '\n' :: '\n' :: m.content.data) from rfl]
    show pyStrip ('\n' :: '\n' :: m.content.data) = m.content.data
    rw [pyStrip_cons_space _ (by rfl), pyStrip_cons_space _ (by rfl), hct.2.1]

lemma checksum_ne_nil (m : Message) (hck : m.checksum = calcChecksum m) :
    m.checksum.data ≠ [] := by
  rw [checksum_data m hck]
  unfold md5HexL
  simp

lemma checksumFromSection_eq (m : Message) (hck : m.checksum = calcChecksum m) :
    checksumFromSection (pyStrip (trailerPart m)) = m.checksum.data := by
  have hsafe : ∀ c ∈ m.checksum.data, pyIsSpace c = false ∧ c ≠ '"' ∧ c ≠ '-' := by
    intro c hc
    rw [checksum_data m hck] at hc
    exact md5HexL_safe hc
  have hps : pyStrip (trailerPart m) =
      "checksum: \"".data ++ (m.checksum.data ++ ['"']) := by
    unfold trailerPart
    rw [pyStrip_cons_space _ (by rfl)]
    have hsh : "checksum: \"".data ++ (m.checksum.data ++ '"' :: ['\n']) =
        ("checksum: \"".data ++ (m.checksum.data ++ ['"'])) ++ ['\n'] := by
      simp
    rw [hsh, pyStrip_concat_space _ (by rfl)]
    refine pyStrip_keep _ ?_ ?_
    · intro ch hch
      rw [show ("checksum: \"".data ++ (m.checksum.data ++ ['"'])).head? =
        some 'c' from rfl] at hch
      obtain rfl : 'c' = ch := Option.some.inj hch
      decide
    · intro ch hch
      rw [getLast?_append_ne _ _ (by simp), List.getLast?_concat] at hch
      obtain rfl : '"' = ch := Option.some.inj hch
      decide
  rw [hps]
  unfold checksumFromSection
  rw [show splitFirst "checksum:".data
      ("checksum: \"".data ++ (m.checksum.data ++ ['"'])) =
    some ([], ' ' :: '"' :: (m.checksum.data ++ ['"'])) from rfl]
  show stripQuotes (pyStrip (' ' :: '"' :: (m.checksum.data ++ ['"']))) =
    m.checksum.data
  rw [pyStrip_cons_space _ (by rfl)]
  have hkeep : pyStrip ('"' :: (m.checksum.data ++ ['"'])) =
      '"' :: (m.checksum.data ++ ['"']) := by
    refine pyStrip_keep _ ?_ ?_
    · intro ch hch
      obtain rfl : '"' = ch := Option.some.inj (by simpa using hch)
      decide
    · intro ch hch
      rw [getLast?_cons_ne _ _ (by simp), List.getLast?_concat] at hch
      obtain rfl : '"' = ch := Option.some.inj hch
      decide
  rw [hkeep]
  exact stripQuotes_wrap _ (checksum_ne_nil m hck) (fun c hc => (hsafe c hc).2.1)

lemma mk_data (s : String) : String.mk s.data = s := rfl

lemma mkMessage_eta (m : Message) (hck : m.checksum = calcChecksum m) :
    mkMessage m.id m.type m.sender m.recipient m.timestamp m.priority
      m.content m.checksum = m := by
  unfold mkMessage
  rw [if_neg ?hne]
  case hne =>
    show ¬m.checksum = ""
    intro hx
    have := checksum_ne_nil m hck
    rw [hx] at this
    exact this rfl

lemma metaGet_id (m : Message) (d : List Char) :
    metaGet (metaKVs m) "id".data d = m.id.data := rfl

lemma metaGet_type (m : Message) (d : List Char) :
    metaGet (metaKVs m) "type".data d = m.type.data := rfl

lemma metaGet_from (m : Message) (d : List Char) :
    metaGet (metaKVs m) "from".data d = m.sender.data := rfl

lemma metaGet_to (m : Message) (d : List Char) :
    metaGet (metaKVs m) "to".data d = m.recipient.data := rfl

lemma metaGet_timestamp (m : Message) (d : List Char) :
    metaGet (metaKVs m) "timestamp".data d = m.timestamp.data := rfl

lemma metaGet_priority (m : Message) (d : List Char) :
    metaGet (metaKVs m) "priority".data d = m.priority.data := rfl

lemma fromMarkdown_toMarkdown (m : Message) (hw : MsgWf m)
    (freshId freshTs : String) :
    fromMarkdown freshId freshTs (toMarkdown m) = Except.ok m := by
  have hck : m.checksum = calcChecksum m := hw.2.2.2.2.2.2.2
  have hct : contentOk m.content := hw.2.2.2.2.2.2.1
  unfold fromMarkdown
  rw [show (toMarkdown m).data = toMarkdownL m from rfl]
  rw [splitTriple_doc m hw]
  rw [if_neg (by simp)]
  simp only [List.getD_cons_succ, List.getD_cons_zero]
  rw [pyStrip_metaPart]
  rw [if_pos (show isPre "metadata:".data (metaCore m) = true from rfl)]
  rw [yamlMeta_metaCore m hw]
  show Except.ok (mkMessage (String.mk (metaGet (metaKVs m) "id".data freshId.data))
    (String.mk (metaGet (metaKVs m) "type".data "task".data))
    (String.mk (metaGet (metaKVs m) "from".data "master".data))
    (String.mk (metaGet (metaKVs m) "to".data "worker-1".data))
    (String.mk (metaGet (metaKVs m) "timestamp".data freshTs.data))
    (String.mk (metaGet (metaKVs m) "priority".data "medium".data))
    (String.mk (contentFromSection (pyStrip (contentPart m))))
    (String.mk (checksumFromSection
      (if 3 < ([" ".data, metaPart m, contentPart m, trailerPart m] :
          List (List Char)).length
        then pyStrip (trailerPart m) else [])))) = Except.ok m
  rw [metaGet_id, metaGet_type, metaGet_from, metaGet_to, metaGet_timestamp,
    metaGet_priority]
  rw [if_pos (by simp)]
  rw [contentFromSection_eq m hct, checksumFromSection_eq m hck]
  rw [mk_data, mk_data, mk_data, mk_data, mk_data, mk_data, mk_data, mk_data]
  rw [mkMessage_eta m hck]

/-! ## Claim theorems for the mailbox protocol -/

/-- C2 counterexample: the claim fails as stated.  For the message with
body `"alpha---beta"`, `from_markdown(to_markdown(m))` succeeds but
returns a message whose content is `"alpha"`, not the original body —
the embedded delimiter splits the document into extra regions and the
decoder truncates the content at the first one. -/
theorem message_roundtrip_cex :
    (fromMarkdown "fresh-id" "fresh-ts" (toMarkdown cexMsg)).map
        Message.content = Except.ok "alpha" ∧
    cexMsg.content = "alpha---beta" ∧ ("alpha" : String) ≠ "alpha---beta" := by
  refine ⟨by decide, by decide, by decide⟩

/-- C2, amended: for every message whose metadata fields are
transport-safe (printable ASCII without `"`, `\`, or two adjacent
dashes) and whose body is stripped, free of adjacent dashes and of
carriage returns, with the checksum computed from the content (as
`__post_init__` does), `from_markdown(to_markdown(m))` succeeds,
returns a message equal to `m` (in particular with equal id, type,
sender, recipient and content), and `verify_checksum()` holds on it. -/
theorem message_roundtrip_wellformed (m : Message) (hw : MsgWf m)
    (freshId freshTs : String) :
    fromMarkdown freshId freshTs (toMarkdown m) = Except.ok m ∧
    verifyChecksum m = true := by
  refine ⟨fromMarkdown_toMarkdown m hw freshId freshTs, ?_⟩
  unfold verifyChecksum
  rw [hw.2.2.2.2.2.2.2]
  simp

/-- Witness for the amended C2 at a concrete well-formed message. -/
theorem message_roundtrip_wellformed_witness :
    MsgWf wfMsg ∧
    fromMarkdown "u" "t" (toMarkdown wfMsg) = Except.ok wfMsg ∧
    verifyChecksum wfMsg = true :=
  ⟨by decide, (message_roundtrip_wellformed wfMsg (by decide) "u" "t").1,
   (message_roundtrip_wellformed wfMsg (by decide) "u" "t").2⟩

/-- C3 counterexample: changing the content of `tamperBase` from `"x"` to
the different value `"x "` leaves `verify_checksum()` true, because the
checksum is computed over the stripped body and both strip to `"x"`. -/
theorem checksum_tamper_cex :
    ("x " : String) ≠ "x" ∧ tamperBase.content = "x" ∧
    verifyChecksum { tamperBase with content := "x " } = true := by
  refine ⟨by decide, by decide, by decide⟩

/-- C3, amended: for a message whose checksum was computed from its
content, changing the content to any value with a different stripped
form makes `verify_checksum()` false while leaving the stored checksum
unchanged, and restoring the original content makes `verify_checksum()`
true again with the original checksum value. -/
theorem checksum_tamper_detection (m : Message)
    (hck : m.checksum = calcChecksum m) (c' : String)
    (hne : pyStrip c'.data ≠ pyStrip m.content.data) :
    verifyChecksum { m with content := c' } = false ∧
    ({ m with content := c' }).checksum = m.checksum ∧
    { { m with content := c' } with content := m.content } = m ∧
    verifyChecksum m = true := by
  refine ⟨?_, rfl, rfl, ?_⟩
  · have hdiff : calcChecksum { m with content := c' } ≠ calcChecksum m := by
      intro heq
      have hdata := congrArg String.data heq
      rw [show (calcChecksum { m with content := c' }).data =
        md5HexL ((m.id ++ m.type ++ m.sender ++ m.recipient).data ++
          pyStrip c'.data) from rfl] at hdata
      rw [show (calcChecksum m).data =
        md5HexL ((m.id ++ m.type ++ m.sender ++ m.recipient).data ++
          pyStrip m.content.data) from rfl] at hdata
      exact hne (List.append_cancel_left (md5HexL_inj hdata))
    unfold verifyChecksum
    refine beq_eq_false_iff_ne.mpr ?_
    show m.checksum ≠ calcChecksum { m with content := c' }
    rw [hck]
    exact fun hx => hdiff hx.symm
  · unfold verifyChecksum
    rw [hck]
    simp

/-- Witness for the amended C3 at a concrete message and altered body. -/
theorem checksum_tamper_detection_witness :
    pyStrip ("evil" : String).data ≠ pyStrip tamperWfBase.content.data ∧
    verifyChecksum { tamperWfBase with content := "evil" } = false ∧
    verifyChecksum tamperWfBase = true :=
  ⟨by decide,
   (checksum_tamper_detection tamperWfBase (by decide) "evil" (by decide)).1,
   (checksum_tamper_detection tamperWfBase (by decide) "evil" (by decide)).2.2.2⟩

/-- C7 counterexample: a document with three `---`-regions whose metadata
block is the bare line `metadata:` (no key/value entries).  YAML loads it
as a null mapping, `metadata.get` raises `AttributeError`, and
`from_markdown` fails instead of substituting the protocol defaults. -/
theorem decode_bare_metadata_cex :
    (splitTriple ("x---\nmetadata:\n---y" : String).data).length = 3 ∧
    isPre "metadata:".data
      (pyStrip ((splitTriple ("x---\nmetadata:\n---y" : String).data).getD 1 [])) =
        true ∧
    fromMarkdown "u" "t" "x---\nmetadata:\n---y" =
      Except.error "Invalid message format: NoneType has no attribute get" := by
  refine ⟨by decide, by decide, by decide⟩

lemma idOnlyDoc_decode (v : String) (hv : fieldOk v) (fid fts : String) :
    fromMarkdown fid fts (idOnlyDoc v) =
      Except.ok (mkMessage v "task" "master" "worker-1" fts "medium" "" "") := by
  have hnl : '\n' ∉ metaLine "id" v.data :=
    nl_not_mem_metaLine "id" v.data (by decide)
      (fun hc => ((fieldOk_char hv) '\n' hc).2.2.1 rfl)
  have hsh : (idOnlyDoc v).data =
      "x".data ++ '-' :: '-' :: '-' ::
        (('\n' :: ("metadata:".data ++ '\n' :: metaLine "id" v.data)) ++
          '-' :: '-' :: '-' :: "y".data) := by
    simp [idOnlyDoc, metaLine, List.append_assoc]
  have hlast2 : ('\n' :: ("metadata:".data ++ '\n' :: metaLine "id" v.data)).getLast? =
      some '"' :=
    getLast?_cons_some (getLast?_append_some
      (getLast?_cons_some (getLast?_metaLine "id" v.data)))
  have hnp2 : noPair ('\n' :: ("metadata:".data ++ '\n' :: metaLine "id" v.data) ++
      ['-']) = true := by
    refine noPair_concat_dash ?_ ?_
    · refine noPair_cons _ _ ?_ (Or.inl (by decide))
      refine noPair_append _ _ (by decide) ?_ (Or.inr (by simp))
      exact noPair_cons _ _ (noPair_metaLine "id" v.data (by decide) hv.1)
        (Or.inl (by decide))
    · rw [hlast2]
      decide
  have hsplit : splitTriple (idOnlyDoc v).data =
      ["x".data, '\n' :: ("metadata:".data ++ '\n' :: metaLine "id" v.data),
       "y".data] := by
    rw [hsh, splitTriple_append _ _ (by decide), splitTriple_append _ _ hnp2,
      splitTriple_noPair _ (by decide)]
  have hstrip : pyStrip ('\n' :: ("metadata:".data ++ '\n' :: metaLine "id" v.data)) =
      "metadata:".data ++ '\n' :: metaLine "id" v.data := by
    rw [pyStrip_cons_space _ (by rfl)]
    refine pyStrip_keep _ ?_ ?_
    · intro ch hch
      rw [show ("metadata:".data ++ '\n' :: metaLine "id" v.data).head? =
        some 'm' from rfl] at hch
      obtain rfl : 'm' = ch := Option.some.inj hch
      decide
    · intro ch hch
      rw [getLast?_append_some (getLast?_cons_some (getLast?_metaLine "id" v.data))]
        at hch
      obtain rfl : '"' = ch := Option.some.inj hch
      decide
  have hyaml : yamlMeta ("metadata:".data ++ '\n' :: metaLine "id" v.data) =
      Except.ok (some [("id".data, v.data)]) := by
    unfold yamlMeta
    rw [splitNl_append _ _ (by decide), splitNl_no _ hnl]
    simp only [mapME, parseMetaLine_metaLine "id" v.data (by rfl) (fieldOk_qs hv)]
    simp
  unfold fromMarkdown
  rw [hsplit]
  rw [if_neg (by simp)]
  simp only [List.getD_cons_succ, List.getD_cons_zero]
  rw [hstrip]
  rw [if_pos (show isPre "metadata:".data
    ("metadata:".data ++ '\n' :: metaLine "id" v.data) = true from rfl)]
  rw [hyaml]
  show Except.ok (mkMessage
    (String.mk (metaGet [("id".data, v.data)] "id".data fid.data))
    (String.mk (metaGet [("id".data, v.data)] "type".data "task".data))
    (String.mk (metaGet [("id".data, v.data)] "from".data "master".data))
    (String.mk (metaGet [("id".data, v.data)] "to".data "worker-1".data))
    (String.mk (metaGet [("id".data, v.data)] "timestamp".data fts.data))
    (String.mk (metaGet [("id".data, v.data)] "priority".data "medium".data))
    (String.mk (contentFromSection (pyStrip "y".data)))
    (String.mk (checksumFromSection []))) = _
  rw [show pyStrip "y".data = "y".data from by decide]
  rw [show contentFromSection "y".data = [] from rfl]
  rw [show checksumFromSection [] = [] from rfl]
  rw [show metaGet [("id".data, v.data)] "id".data fid.data = v.data from rfl]
  rfl

/-- C7, amended: `from_markdown` fails for every text with fewer than
three `---`-regions; for a text with three regions whose metadata block
holds at least one entry (here an `id` entry with a transport-safe
value), decoding succeeds and substitutes the defaults
`type = "task"`, `sender = "master"`, `recipient = "worker-1"`,
`priority = "medium"` for the absent keys (a bare entry-less
`metadata:` block instead fails, see the counterexample); and decoding
succeeds structurally even when the embedded checksum does not verify
against the decoded content. -/
theorem decode_defaults_amended :
    (∀ freshId freshTs markdown : String,
      (splitTriple markdown.data).length < 3 →
      fromMarkdown freshId freshTs markdown =
        Except.error "Invalid message format: missing delimiters") ∧
    (∀ freshId freshTs v : String, fieldOk v →
      fromMarkdown freshId freshTs (idOnlyDoc v) =
        Except.ok (mkMessage v "task" "master" "worker-1" freshTs "medium"
          "" "")) ∧
    fromMarkdown "u" "t" badChecksumDoc = Except.ok badChecksumMsg ∧
    verifyChecksum badChecksumMsg = false := by
  refine ⟨?_, ?_, by decide, by decide⟩
  · intro freshId freshTs markdown h
    unfold fromMarkdown
    rw [if_pos h]
  · intro freshId freshTs v hv
    exact idOnlyDoc_decode v hv freshId freshTs

/-- Witness for the amended C7: the short-region rule at the document
`"ab"` and the default substitution at the id value `"abc"`. -/
theorem decode_defaults_amended_witness :
    (splitTriple ("ab" : String).data).length < 3 ∧
    fromMarkdown "u" "t" "ab" =
      Except.error "Invalid message format: missing delimiters" ∧
    fieldOk "abc" ∧
    fromMarkdown "u" "t" (idOnlyDoc "abc") =
      Except.ok (mkMessage "abc" "task" "master" "worker-1" "t" "medium"
        "" "") :=
  ⟨by decide, decode_defaults_amended.1 "u" "t" "ab" (by decide), by decide,
   decode_defaults_amended.2.1 "u" "t" "abc" (by decide)⟩

/-! ## Mailbox store lemmas and claim theorems -/

lemma mem_insertByE (x z : MailFile) (l : List MailFile) :
    z ∈ insertByE x l ↔ z = x ∨ z ∈ l := by
  induction l with
  | nil => simp [insertByE]
  | cons y ys ih =>
    by_cases h : mailLe x y = true
    · simp [insertByE, h]
    · simp [insertByE, h, ih]
      tauto

lemma mem_sortByE (l : List MailFile) (z : MailFile) :
    z ∈ sortByE l ↔ z ∈ l := by
  induction l with
  | nil => simp [sortByE]
  | cons e rest ih =>
    unfold sortByE
    rw [List.foldr_cons, mem_insertByE]
    unfold sortByE at ih
    rw [ih]
    simp

/-- C4: `receive_messages` never raises (it is a total function here);
every stored message whose recomputed checksum does not match its stored
checksum is excluded — equivalently, every returned message passes
`verify_checksum` — and every file in the agent's inbox that matches the
listing pattern and decodes to a checksum-valid message is still
returned. -/
theorem receive_skips_invalid_checksum (freshId freshTs : String)
    (st : CommState) (agent : String) (mtype : Option String) :
    (∀ msg ∈ receiveMessages freshId freshTs st agent mtype,
      verifyChecksum msg = true) ∧
    (∀ e ∈ inboxFiles st agent, endsWithL (mdPat mtype) e.2.1.data = true →
      ∀ msg, fromMarkdown freshId freshTs e.2.2 = Except.ok msg →
        verifyChecksum msg = true →
        msg ∈ receiveMessages freshId freshTs st agent mtype) := by
  constructor
  · intro msg hmsg
    unfold receiveMessages at hmsg
    obtain ⟨e, _, hfe⟩ := List.mem_filterMap.mp hmsg
    rcases hfm : fromMarkdown freshId freshTs e.2.2 with err | m'
    · rw [hfm] at hfe
      simp at hfe
    · rw [hfm] at hfe
      by_cases hv : verifyChecksum m' = true
      · simp [hv] at hfe
        rw [← hfe]
        exact hv
      · simp [hv] at hfe
  · intro e he hpat msg hfm hv
    unfold receiveMessages
    refine List.mem_filterMap.mpr ⟨e, ?_, ?_⟩
    · rw [mem_sortByE]
      exact List.mem_filter.mpr ⟨he, hpat⟩
    · rw [hfm]
      simp [hv]

/-- Witness for C4: the valid message is returned (by the theorem) and
the corrupted one is excluded. -/
theorem receive_skips_invalid_checksum_witness :
    okMsg ∈ receiveMessages "u" "t" demoComm "worker-1" none ∧
    receiveMessages "u" "t" demoComm "worker-1" none = [okMsg] :=
  ⟨(receive_skips_invalid_checksum "u" "t" demoComm "worker-1" none).2
     ("worker-1", "m-ok_task.md", toMarkdown okMsg) (by decide) (by decide)
     okMsg (by decide) (by decide),
   by decide⟩

lemma verify_of_wf (m : Message) (hw : MsgWf m) : verifyChecksum m = true := by
  unfold verifyChecksum
  rw [hw.2.2.2.2.2.2.2]
  simp

lemma endsWith_msgFilename (m : Message) :
    endsWithL (mdPat none) (msgFilename m).data = true := by
  unfold msgFilename mdPat
  rw [show (m.id ++ "_" ++ m.type ++ ".md").data =
    (m.id ++ "_" ++ m.type).data ++ ".md".data from rfl]
  exact endsWithL_append _ _

/-- C8, amended: a well-formed (transport-safe) message sent from
`"master"` to a worker recipient (one distinct from `"master"`) is stored
under `master_to_worker/<recipient>/` and subsequently returned by
`receive_messages(recipient)` but not by `receive_messages("master")`;
a message whose sender is a worker is stored under
`worker_to_master/<sender>/` and returned only by
`receive_messages("master")` — receives for every non-master agent
return nothing.  (For a master-authored message whose recipient is
`"master"` itself the original claim fails, see the counterexample.) -/
theorem mailbox_routing (m : Message) (hw : MsgWf m) (freshId freshTs : String) :
    (m.sender = "master" → m.recipient ≠ "master" →
      (sendMessage emptyComm m).1.m2w =
        [(m.recipient, msgFilename m, toMarkdown m)] ∧
      (sendMessage emptyComm m).1.w2m = [] ∧
      m ∈ receiveMessages freshId freshTs (sendMessage emptyComm m).1
        m.recipient none ∧
      receiveMessages freshId freshTs (sendMessage emptyComm m).1 "master"
        none = []) ∧
    (m.sender ≠ "master" →
      (sendMessage emptyComm m).1.w2m =
        [(m.sender, msgFilename m, toMarkdown m)] ∧
      (sendMessage emptyComm m).1.m2w = [] ∧
      m ∈ receiveMessages freshId freshTs (sendMessage emptyComm m).1 "master"
        none ∧
      (∀ a, a ≠ "master" →
        receiveMessages freshId freshTs (sendMessage emptyComm m).1 a
          none = [])) := by
  constructor
  · intro hs hr
    have hsend : (sendMessage emptyComm m).1 =
        { m2w := [(m.recipient, msgFilename m, toMarkdown m)], w2m := [] } := by
      simp [sendMessage, hs, emptyComm, upsertMail]
    refine ⟨by rw [hsend], by rw [hsend], ?_, ?_⟩
    · rw [hsend]
      unfold receiveMessages inboxFiles
      simp only [show (m.recipient == "master") = false from by simp [hr],
        Bool.false_eq_true, if_false, List.filter_cons, List.filter_nil]
      rw [if_pos (by simp)]
      simp only [sortByE, List.foldr_cons, List.foldr_nil, insertByE]
      rw [List.filter_cons, if_pos (by
        simpa using endsWith_msgFilename m)]
      simp only [List.filter_nil, List.filterMap_cons,
        fromMarkdown_toMarkdown m hw, verify_of_wf m hw]
      simp only [List.mem_filterMap]
      exact ⟨(m.recipient, msgFilename m, toMarkdown m), by simp [insertByE],
        by rw [fromMarkdown_toMarkdown m hw]; simp [verify_of_wf m hw]⟩
    · rw [hsend]
      unfold receiveMessages inboxFiles
      simp [sortByE]
  · intro hs
    have hsend : (sendMessage emptyComm m).1 =
        { m2w := [], w2m := [(m.sender, msgFilename m, toMarkdown m)] } := by
      simp [sendMessage, hs, emptyComm, upsertMail]
    refine ⟨by rw [hsend], by rw [hsend], ?_, ?_⟩
    · rw [hsend]
      unfold receiveMessages inboxFiles
      simp only [show (("master" : String) == "master") = true from by simp,
        if_true]
      simp only [sortByE, List.foldr_cons, List.foldr_nil, insertByE]
      rw [List.filter_cons, if_pos (by
        simpa using endsWith_msgFilename m)]
      simp only [List.filter_nil, List.filterMap_cons,
        fromMarkdown_toMarkdown m hw, verify_of_wf m hw]
      simp only [List.mem_filterMap]
      exact ⟨(m.sender, msgFilename m, toMarkdown m), by simp [insertByE],
        by rw [fromMarkdown_toMarkdown m hw]; simp [verify_of_wf m hw]⟩
    · intro a ha
      rw [hsend]
      unfold receiveMessages inboxFiles
      simp [show (a == "master") = false from by simp [ha], sortByE]

/-- C8 counterexample: the claim fails as stated for a master-authored
message whose recipient is `"master"`.  The file is stored under
`master_to_worker/master/`, but `receive_messages("master")` reads only
`worker_to_master/`, so the message is not returned by
`receive_messages(recipient)`. -/
theorem routing_master_recipient_cex :
    mmMsg.sender = "master" ∧
    (sendMessage emptyComm mmMsg).1.m2w =
      [("master", msgFilename mmMsg, toMarkdown mmMsg)] ∧
    receiveMessages "u" "t" (sendMessage emptyComm mmMsg).1
      mmMsg.recipient none = [] := by
  refine ⟨by decide, by decide, by decide⟩

/-- Witness for the amended C8 at two concrete messages. -/
theorem mailbox_routing_witness :
    mwMsg ∈ receiveMessages "u" "t" (sendMessage emptyComm mwMsg).1
      "worker-2" none ∧
    w2Msg ∈ receiveMessages "u" "t" (sendMessage emptyComm w2Msg).1
      "master" none :=
  ⟨((mailbox_routing mwMsg (by decide) "u" "t").1 (by decide)
      (by decide)).2.2.1,
   ((mailbox_routing w2Msg (by decide) "u" "t").2 (by decide)).2.2.1⟩

/-- C9: evaluating the code on the claim's scenario.  The notification
file matches the scan glob and parses to task id `task_task-1a2b` and
worker `worker-1`, but the scan then looks for
`tasks/pending/task_task-1a2b.yaml` while the TaskManager persisted
`task-1a2b.json` — so no assignment is ever created and
`get_status_summary()` returns all zeros instead of the claimed
`(total 1, notified 1, completed 1, pending 0)`. -/
theorem distributor_scenario_summary_zero :
    globNotif ("20240101_120000_master_worker1_task_task-1a2b.md" :
      String).data = true ∧
    parseCommFilename ("20240101_120000_master_worker1_task_task-1a2b.md" :
      String).data = some ("task_task-1a2b", "worker-1") ∧
    scenState0.pendingFiles = ["task-1a2b.json"] ∧
    scanNewTasks scenState1 = [] ∧
    getStatusSummary scenState4 =
      { total := 0, notified := 0, completed := 0, pending := 0 } := by
  refine ⟨by decide, by decide, by decide, by decide, by decide⟩

end Hephaestus
